import Mathlib

/-!
# PagasaToWikipedia: classification of affected areas and wikitext bullets

A shallow embedding of `src/formatters/PagasaToWikipedia.js`.

* JavaScript strings are Lean strings; text processing works on their
  character lists, one character standing for one UTF-16 code unit (text
  outside the Basic Multilingual Plane is not modelled).
* `this.regions` (the file `wp-regions.json`) and `this.provinces` (the page
  titles fetched from Wikipedia) are parameters of the functions reading them.
* `this.issues` is threaded through every function that may call `_issue`.
* A `TypeError` raised by a property read on `undefined` is an `Except` error.
* What a run obtains from outside (the scraper, `JSON.parse`, the answer of
  Wikipedia, the time zone of the machine) is gathered in `Collaborators`; a
  date is its time value in milliseconds and the offset of local time is
  fixed.
-/

namespace PagasaToWikipedia

/-! ## Data model -/

/-- The `includes` record of an affected area. -/
structure Includes where
  term : Option String
  part : Option String
  municipalities : Option (List String)
deriving DecidableEq

/-- One line item of a bulletin. -/
structure AffectedArea where
  province : String
  part : Option Bool
  includes : Option Includes
deriving DecidableEq

/-- One record of `wp-regions.json`. -/
structure Region where
  name : String
  page : Option String
  designation : Option String
  provinces : List String
deriving DecidableEq

/-- A present `extras` value: a list of areas, or an object given by its own
enumerable properties in `Object.keys` order. The value `null`, on which
`Object.keys` throws, is a case of `ExtrasField`. -/
inductive Extras where
  | array (items : List AffectedArea)
  | object (entries : List (String × List AffectedArea))
deriving DecidableEq

/-- The `affected_areas` record of one signal level; `none` stands for a
missing (or, for the three lists, `null`) property. -/
structure Landmasses where
  luzon : Option (List AffectedArea)
  visayas : Option (List AffectedArea)
  mindanao : Option (List AffectedArea)
  extras : Option Extras
deriving DecidableEq

/-- The objects handed to `_issue`. -/
inductive Issue where
  | province (message : String) (province : String)
  | entry (message : String) (entry : AffectedArea)
  | extras (message : String) (entry : Extras)
deriving DecidableEq

/-- The field `this.issues`: `none` while it is `undefined`. -/
abbrev IssueLog := Option (List Issue)

/-- Errors thrown by the JavaScript runtime. -/
inductive JSError where
  | typeError
  | syntaxError
deriving DecidableEq

deriving instance DecidableEq for Except

/-- Property keys of `byRegion`: a region index or `"_"`. -/
inductive BucketKey where
  | region (index : Nat)
  | unclassified
deriving DecidableEq

/-- The object `byRegion`: its own properties in creation order. -/
abbrev ClassifiedAreas := List (BucketKey × List AffectedArea)

/-! ## `_issue` -/

/-- The method `_issue(issueDetails)`: create the list when undefined, then push. -/
def _issue (issueDetails : Issue) (issues : IssueLog) : IssueLog :=
  some (issues.getD [] ++ [issueDetails])

/-- The issues held by the log, oldest first. -/
def IssueLog.entries (issues : IssueLog) : List Issue :=
  issues.getD []

/-! ## Regular expressions and string primitives -/

/-- The test `/Islands?$/.test(s)`: the text ends in `Island` or in `Islands`. -/
def testIslands (s : String) : Bool :=
  "Island".toList.isSuffixOf s.toList || "Islands".toList.isSuffixOf s.toList

/-- Line terminators, which `.` does not match. -/
def isLineTerminator (c : Char) : Bool :=
  c.toNat = 0x0A || c.toNat = 0x0D || c.toNat = 0x2028 || c.toNat = 0x2029

/-- The class `\s`, also the white space trimmed by the conversion of a
string to a number: white space and line terminators. -/
def isWhiteSpace (c : Char) : Bool :=
  c.toNat = 0x09 || c.toNat = 0x0B || c.toNat = 0x0C || c.toNat = 0x20 ||
  c.toNat = 0xA0 || c.toNat = 0x1680 || (0x2000 ≤ c.toNat && c.toNat ≤ 0x200A) ||
  c.toNat = 0x202F || c.toNat = 0x205F || c.toNat = 0x3000 || c.toNat = 0xFEFF ||
  isLineTerminator c

/-- The call `text.replace(re, repl)` for a global `re` whose matches are not empty:
`matchLen` gives the length of the match of `re` at the head of a text. The
counter is the number of characters of the last match still to be skipped. -/
def replaceGo (matchLen : List Char → Option Nat) (repl : List Char) :
    Nat → List Char → List Char
  | _, [] => []
  | skip + 1, _ :: rest => replaceGo matchLen repl skip rest
  | 0, c :: rest =>
    match matchLen (c :: rest) with
    | some (n + 1) => repl ++ replaceGo matchLen repl n rest
    | _ => c :: replaceGo matchLen repl 0 rest

/-- The match of `/Sta./` at the head of a text. -/
def matchSta : List Char → Option Nat
  | 'S' :: 't' :: 'a' :: c :: _ => if isLineTerminator c then none else some 4
  | _ => none

/-- The match of `/Sto./` at the head of a text. -/
def matchSto : List Char → Option Nat
  | 'S' :: 't' :: 'o' :: c :: _ => if isLineTerminator c then none else some 4
  | _ => none

/-- The alternation `(east|north|south|west)` at the head of a text: the
length of the word and the text after it. -/
def matchWord : List Char → Option (Nat × List Char)
  | 'e' :: 'a' :: 's' :: 't' :: r => some (4, r)
  | 'n' :: 'o' :: 'r' :: 't' :: 'h' :: r => some (5, r)
  | 's' :: 'o' :: 'u' :: 't' :: 'h' :: r => some (5, r)
  | 'w' :: 'e' :: 's' :: 't' :: r => some (4, r)
  | _ => none

/-- The tail `ern\s` at the head of a text. -/
def matchErnSpace : List Char → Option Nat
  | 'e' :: 'r' :: 'n' :: c :: _ => if isWhiteSpace c then some 4 else none
  | _ => none

/-- The match of `(east|north|south|west)+ern\s` at the head of a text: one
word, then greedily a further repetition, falling back to the tail. -/
def matchDirectionalAux : Nat → List Char → Option Nat
  | 0, _ => none
  | fuel + 1, s =>
    match matchWord s with
    | none => none
    | some (w, r) =>
      match matchDirectionalAux fuel r with
      | some n => some (w + n)
      | none => (matchErnSpace r).map (w + ·)

/-- The match of `/(?:(east|north|south|west)+ern)\s/` at the head of a text. -/
def matchDirectional (s : List Char) : Option Nat :=
  matchDirectionalAux (s.length + 1) s

/-- The three chained `replace` calls on a municipality name. -/
def rewriteMunicipality (municipality : String) : String :=
  String.mk
    (replaceGo matchDirectional [] 0
      (replaceGo matchSto "Santo".toList 0
        (replaceGo matchSta "Santa".toList 0 municipality.toList)))

/-- The call `s.toLowerCase()`, used only to compare with the words `mainland` and
`rest`: outside `A`-`Z` no character lowercases to one of their letters, so
lowercasing these letters alone decides the same comparisons. -/
def toLowerCase (s : String) : String :=
  String.mk (s.toList.map Char.toLower)

/-- The text a template literal gives an optional string: `undefined` when
the property is missing. -/
def templateText : Option String → String
  | some s => s
  | none => "undefined"

/-! ## The alias table -/

/-- The own properties of `this.municipalitiesTransumte`. -/
def municipalitiesTransumte : List (String × String) :=
  [("Albuena", "Albuera"),
   ("San Jose Del Monte", "San Jose del Monte"),
   ("Dinapugue", "Dinapigue"),
   ("Macallelon", "Macalelon"),
   ("Tagkayawan", "Tagkawayan")]

/-- The methods an object literal inherits from `Object.prototype`, each with
the name of the function it holds. -/
def objectPrototypeMethods : List (String × String) :=
  [("constructor", "Object"),
   ("__defineGetter__", "__defineGetter__"),
   ("__defineSetter__", "__defineSetter__"),
   ("hasOwnProperty", "hasOwnProperty"),
   ("__lookupGetter__", "__lookupGetter__"),
   ("__lookupSetter__", "__lookupSetter__"),
   ("isPrototypeOf", "isPrototypeOf"),
   ("propertyIsEnumerable", "propertyIsEnumerable"),
   ("toString", "toString"),
   ("valueOf", "valueOf"),
   ("toLocaleString", "toLocaleString")]

/-- What a property read `table[key]` on an object literal gives. -/
inductive TableValue where
  | undefined
  | text (s : String)
  | objectPrototype
  | nativeFunction (name : String)
deriving DecidableEq

/-- The read `this.municipalitiesTransumte[key]`: an own property, else a
property inherited from `Object.prototype`, else `undefined`. -/
def getTransumte (key : String) : TableValue :=
  match municipalitiesTransumte.lookup key with
  | some v => .text v
  | none =>
    if key = "__proto__" then .objectPrototype
    else
      match objectPrototypeMethods.lookup key with
      | some name => .nativeFunction name
      | none => .undefined

/-- The text a template literal gives a value read from the table. -/
def TableValue.templateText : TableValue → String
  | .undefined => "undefined"
  | .text s => s
  | .objectPrototype => "[object Object]"
  | .nativeFunction name => "function " ++ name ++ "() \x7b [native code] \x7d"

/-! ## `_linkMunicipalities` -/

/-- The link target `m` computed by the callback of `map`. -/
def linkTarget (municipality : String) : String :=
  let m := rewriteMunicipality municipality
  match getTransumte municipality with
  | .undefined => m
  | v => v.templateText

/-- The callback of `map` in `_linkMunicipalities`. -/
def linkMunicipality (province municipality : String) : String :=
  "[[" ++ linkTarget municipality ++ ", " ++ province ++ "|" ++ municipality ++ "]]"

/-- The method `_linkMunicipalities(v)`: the small-text list of linked
municipalities, empty when none are given. -/
def _linkMunicipalities (v : AffectedArea) : Except JSError String :=
  match v.includes with
  | none => .error .typeError
  | some includes =>
    match includes.municipalities with
    | some (m :: ms) =>
      .ok (" \x7b\x7bsmall|("
        ++ ", ".intercalate ((m :: ms).map (linkMunicipality v.province)) ++ ")\x7d\x7d")
    | _ => .ok ""

/-! ## `_getProvinceAsBullet` -/

/-- The page found for a province and the issue log after the search: the
first part of `_getProvinceAsBullet`. -/
def findProvincePage (provinces : List String) (v : AffectedArea) (issues : IssueLog) :
    Option String × IssueLog :=
  if !provinces.contains v.province && v.province != "Metro Manila"
      && !testIslands v.province then
    if !provinces.contains (v.province ++ " (province)") then
      (none, _issue (.province ("Page not found for province: " ++ v.province) v.province) issues)
    else (some (v.province ++ " (province)"), issues)
  else (some v.province, issues)

/-- The variable `provinceLink`; `!provincePage` also holds of the empty
string. -/
def provinceLink (provincePage : Option String) (province : String) : String :=
  match provincePage with
  | none => province
  | some page =>
    if page = "" then province
    else if page = province then "[[" ++ province ++ "]]"
    else "[[" ++ page ++ "|" ++ province ++ "]]"

/-- The method `_getProvinceAsBullet(v, bulletString)`: the line, or the error thrown,
and the issue log afterwards. -/
def _getProvinceAsBullet (provinces : List String) (v : AffectedArea) (bulletString : String)
    (issues : IssueLog) : Except JSError String × IssueLog :=
  let found := findProvincePage provinces v issues
  let link := provinceLink found.1 v.province
  if !(v.part.getD false) then
    (.ok (bulletString ++ " " ++ link ++ "\n"), found.2)
  else
    match v.includes with
    | none => (.error .typeError, found.2)
    | some includes =>
      match includes.term with
      | none => (.error .typeError, found.2)
      | some term =>
        if toLowerCase term = "mainland" then
          (.ok (bulletString ++ " Mainland " ++ link ++ "\n"), found.2)
        else if toLowerCase term = "rest" then
          (.ok (bulletString ++ " rest of " ++ link ++ "\n"), found.2)
        else
          match _linkMunicipalities v with
          | .error e => (.error e, found.2)
          | .ok municipalities =>
            (.ok (bulletString ++ " " ++ templateText includes.part ++ " " ++ term ++ " of "
              ++ link ++ municipalities ++ "\n"), found.2)

/-! ## The comparison `Object.keys(extras) > 0` -/

/-- The text after leading and trailing white space is removed. -/
def trimWhiteSpace (s : List Char) : List Char :=
  ((s.dropWhile isWhiteSpace).reverse.dropWhile isWhiteSpace).reverse

/-- The number written by a list of digits in the given base. -/
def digitsValue (base : Nat) (ds : List Char) : Nat :=
  ds.foldl (fun n c =>
    base * n + (if c.isDigit then c.toNat - 48
      else if c.isLower then c.toNat - 87 else c.toNat - 55)) 0

/-- A non-decimal integer literal `0x…`, `0o…` or `0b…` whose value is
positive; `none` when the text is no such literal. -/
def nonDecimalPositive : List Char → Option Bool
  | '0' :: x :: ds =>
    let isHex := fun (c : Char) =>
      c.isDigit || ('a' ≤ c && c ≤ 'f') || ('A' ≤ c && c ≤ 'F')
    let isOctal := fun (c : Char) => '0' ≤ c && c ≤ '7'
    let isBinary := fun (c : Char) => c = '0' || c = '1'
    if (x = 'x' || x = 'X') && !ds.isEmpty && ds.all isHex then
      some (decide (0 < digitsValue 16 ds))
    else if (x = 'o' || x = 'O') && !ds.isEmpty && ds.all isOctal then
      some (decide (0 < digitsValue 8 ds))
    else if (x = 'b' || x = 'B') && !ds.isEmpty && ds.all isBinary then
      some (decide (0 < digitsValue 2 ds))
    else none
  | _ => none

/-- The exponent part of a decimal literal: empty, or `e`/`E`, an optional
sign and digits. -/
def exponentPart : List Char → Option Int
  | [] => some 0
  | e :: rest =>
    if e = 'e' || e = 'E' then
      match rest with
      | '+' :: ds =>
        if !ds.isEmpty && ds.all Char.isDigit then some (digitsValue 10 ds) else none
      | '-' :: ds =>
        if !ds.isEmpty && ds.all Char.isDigit then some (-(digitsValue 10 ds : Int)) else none
      | ds => if !ds.isEmpty && ds.all Char.isDigit then some (digitsValue 10 ds) else none
    else none

/-- An unsigned decimal literal that converts to a double above zero:
`Infinity`, or digits with an optional fraction and exponent whose value
exceeds `2^-1075`, half the least positive double. -/
def unsignedDecimalPositive (s : List Char) : Bool :=
  if s = "Infinity".toList then true
  else
    let intPart := s.span Char.isDigit
    let fracPart : List Char × List Char :=
      match intPart.2 with
      | '.' :: r => r.span Char.isDigit
      | r => ([], r)
    if intPart.1.isEmpty && fracPart.1.isEmpty then false
    else
      match exponentPart fracPart.2 with
      | none => false
      | some e =>
        let mantissa := digitsValue 10 (intPart.1 ++ fracPart.1)
        let exponent : Int := e - fracPart.1.length
        if 0 ≤ exponent then decide (0 < mantissa)
        else decide (10 ^ exponent.natAbs < mantissa * 2 ^ 1075)

/-- Whether `ToNumber(s) > 0` for a string `s`. -/
def stringToNumberPositive (s : String) : Bool :=
  let t := trimWhiteSpace s.toList
  match nonDecimalPositive t with
  | some b => b
  | none =>
    match t with
    | '-' :: _ => false
    | '+' :: r => unsignedDecimalPositive r
    | r => unsignedDecimalPositive r

/-- The call `Object.keys(extras)`: the indices of an array, the keys of an object. -/
def objectKeys : Extras → List String
  | .array items => (List.range items.length).map toString
  | .object entries => entries.map (·.1)

/-- The comparison `Object.keys(extras) > 0`: the array of keys converts to its elements
joined by commas, and that text to a number. -/
def objectKeysGreaterThanZero (extras : Extras) : Bool :=
  stringToNumberPositive (",".intercalate (objectKeys extras))

/-! ## `_landmassesToRegions` -/

/-- The bucket `byRegion[key]`, `none` when undefined. -/
def getBucket (byRegion : ClassifiedAreas) (key : BucketKey) : Option (List AffectedArea) :=
  match byRegion with
  | [] => none
  | (k, bucket) :: rest => if k = key then some bucket else getBucket rest key

/-- The statements `if (byRegion[key] === undefined) byRegion[key] = [];
byRegion[key].push(entry)`. -/
def pushEntry (byRegion : ClassifiedAreas) (key : BucketKey) (entry : AffectedArea) :
    ClassifiedAreas :=
  match byRegion with
  | [] => [(key, [entry])]
  | (k, bucket) :: rest =>
    if k = key then (k, bucket ++ [entry]) :: rest
    else (k, bucket) :: pushEntry rest key entry

/-- The list `mixed`. -/
def mixed (landmasses : Landmasses) : List AffectedArea :=
  landmasses.luzon.getD [] ++ landmasses.visayas.getD [] ++ landmasses.mindanao.getD []

/-- The check of `extras`. -/
def checkExtras (landmasses : Landmasses) (issues : IssueLog) : IssueLog :=
  match landmasses.extras with
  | none => issues
  | some extras =>
    if objectKeysGreaterThanZero extras then _issue (.extras "Extras detected." extras) issues
    else issues

/-- The call `this.regions.forEach(...)` for one entry, from the region at
position `index` on: the flag `regionFound` and `byRegion`. -/
def scanRegions (entry : AffectedArea) :
    List Region → Nat → Bool × ClassifiedAreas → Bool × ClassifiedAreas
  | [], _, state => state
  | element :: rest, index, state =>
    if !state.1 && element.provinces.contains entry.province then
      scanRegions entry rest (index + 1) (true, pushEntry state.2 (.region index) entry)
    else scanRegions entry rest (index + 1) state

/-- The body of the loop `for (var entry of mixed)`. -/
def classifyEntry (regions : List Region) (state : ClassifiedAreas × IssueLog)
    (entry : AffectedArea) : ClassifiedAreas × IssueLog :=
  let scanned := scanRegions entry regions 0 (false, state.1)
  if !scanned.1 then
    let issues :=
      if !testIslands entry.province then
        _issue (.entry ("Region for " ++ entry.province ++ " not found.") entry) state.2
      else state.2
    (pushEntry scanned.2 .unclassified entry, issues)
  else (scanned.2, state.2)

/-- The method `_landmassesToRegions(landmasses)`: `byRegion` and the issue log
afterwards. -/
def _landmassesToRegions (regions : List Region) (landmasses : Landmasses)
    (issues : IssueLog) : ClassifiedAreas × IssueLog :=
  (mixed landmasses).foldl (classifyEntry regions) ([], checkExtras landmasses issues)

/-! ## Rendering: `_getRegionHeader`, `_getRegionsWikitext`, `_toWikitext` -/

/-- Two steps in sequence, the second on the value and the issue log left by
the first; an error thrown by the first ends the run with the log as it is. -/
def andThen {α β : Type} (x : Except JSError α × IssueLog)
    (f : α → IssueLog → Except JSError β × IssueLog) : Except JSError β × IssueLog :=
  match x.1 with
  | .ok a => f a x.2
  | .error e => (.error e, x.2)

/-- The method `_getRegionHeader(region)`; `region.page ? … : ""` also drops
an empty page. -/
def _getRegionHeader (region : Option Region) : String :=
  match region with
  | some region =>
    "* \x27\x27\x27[["
      ++ (match region.page with
          | some page => if page = "" then "" else page ++ "|"
          | none => "")
      ++ region.name ++ "]]\x27\x27\x27 "
      ++ (match region.designation with
          | some designation => "\x7b\x7bsmall|(" ++ designation ++ ")\x7d\x7d\n"
          | none => "\n")
  | none => "\n"

/-- The statement `out += this._getProvinceAsBullet(v, bulletString)`. -/
def appendBullet (provinces : List String) (bulletString : String)
    (out : Except JSError String × IssueLog) (v : AffectedArea) :
    Except JSError String × IssueLog :=
  andThen out (fun text log =>
    andThen (_getProvinceAsBullet provinces v bulletString log)
      (fun line log2 => (.ok (text ++ line), log2)))

/-- The method `_getRegionsWikitext(region, areas)`: the header, then one
bullet per area, with `**` under a region and `*` without one. -/
def _getRegionsWikitext (provinces : List String) (region : Option Region)
    (areas : List AffectedArea) (issues : IssueLog) : Except JSError String × IssueLog :=
  areas.foldl (appendBullet provinces (if region.isSome then "**" else "*"))
    (.ok (_getRegionHeader region), issues)

/-- The statement `signalsWikitext[signal] += this._getRegionsWikitext(region, areas)`. -/
def appendRegion (provinces : List String)
    (out : Except JSError String × IssueLog) (part : Option Region × List AffectedArea) :
    Except JSError String × IssueLog :=
  andThen out (fun text log =>
    andThen (_getRegionsWikitext provinces part.1 part.2 log)
      (fun t log2 => (.ok (text ++ t), log2)))

/-- The region index of a property key, none for `"_"`. -/
def regionIndex : BucketKey → Option Nat
  | .region i => some i
  | .unclassified => none

/-- The numeric keys met by `Object.entries(tcwsRegions).forEach`: the own
property keys that are array indices come first, in ascending order, whatever
the order of creation; the key `"_"`, which comes after them, is skipped. -/
def regionKeys (tcwsRegions : ClassifiedAreas) : List Nat :=
  ((tcwsRegions.map Prod.fst).filterMap regionIndex).insertionSort (· ≤ ·)

/-- The body of the loop of `_toWikitext` for one signal: the text
`signalsWikitext[signal]`. -/
def signalWikitext (provinces : List String) (regions : List Region)
    (tcwsRegions : Option ClassifiedAreas) (issues : IssueLog) :
    Except JSError String × IssueLog :=
  match tcwsRegions with
  | none => (.ok "", issues)
  | some byRegion =>
    let afterUnclassified : Except JSError String × IssueLog :=
      match getBucket byRegion .unclassified with
      | some areas => appendRegion provinces (.ok "\n", issues) (none, areas)
      | none => (.ok "\n", issues)
    (regionKeys byRegion).foldl
      (fun out i =>
        appendRegion provinces out (regions[i]?, (getBucket byRegion (.region i)).getD []))
      afterUnclassified

/-- A record with the properties `"1"` to `"5"`. -/
structure Levels (α : Type) where
  signal1 : α
  signal2 : α
  signal3 : α
  signal4 : α
  signal5 : α
deriving DecidableEq

/-- The method `_toWikitext(parsedTCWS)`: the five texts, built from signal 1
to signal 5. -/
def _toWikitext (provinces : List String) (regions : List Region)
    (parsedTCWS : Levels (Option ClassifiedAreas)) (issues : IssueLog) :
    Except JSError (Levels String) × IssueLog :=
  andThen (signalWikitext provinces regions parsedTCWS.signal1 issues) fun t1 log1 =>
  andThen (signalWikitext provinces regions parsedTCWS.signal2 log1) fun t2 log2 =>
  andThen (signalWikitext provinces regions parsedTCWS.signal3 log2) fun t3 log3 =>
  andThen (signalWikitext provinces regions parsedTCWS.signal4 log3) fun t4 log4 =>
  andThen (signalWikitext provinces regions parsedTCWS.signal5 log4) fun t5 log5 =>
  (.ok ⟨t1, t2, t3, t4, t5⟩, log5)

/-! ## `_reorganizeSignals` -/

/-- One property of `reorganized`: `signals[n] ?
this._landmassesToRegions(signals[n]["affected_areas"]) : null`. -/
def reorganizeSignal (regions : List Region) (signal : Option Landmasses)
    (issues : IssueLog) : Option ClassifiedAreas × IssueLog :=
  match signal with
  | some landmasses =>
    (some (_landmassesToRegions regions landmasses issues).1,
      (_landmassesToRegions regions landmasses issues).2)
  | none => (none, issues)

/-- The method `_reorganizeSignals(bulletin)` on `bulletin["storm_signals"]`,
each signal given by its `affected_areas`. -/
def _reorganizeSignals (regions : List Region) (signals : Levels (Option Landmasses))
    (issues : IssueLog) : Levels (Option ClassifiedAreas) × IssueLog :=
  let r1 := reorganizeSignal regions signals.signal1 issues
  let r2 := reorganizeSignal regions signals.signal2 r1.2
  let r3 := reorganizeSignal regions signals.signal3 r2.2
  let r4 := reorganizeSignal regions signals.signal4 r3.2
  let r5 := reorganizeSignal regions signals.signal5 r4.2
  (⟨r1.1, r2.1, r3.1, r4.1, r5.1⟩, r5.2)

/-! ## `_generateTemplate` -/

/-- The expression `("0" + n).slice(-2)`. -/
def pad2 (n : Nat) : String :=
  String.mk (("0" ++ toString n).toList.drop (("0" ++ toString n).length - 2))

/-- The call `getHours()` on a date of time value `t` (milliseconds since the
epoch) on a machine whose local time is `localOffset` minutes ahead of UTC. -/
def getHours (localOffset t : Int) : Nat :=
  (((t + localOffset * 60000) / 3600000) % 24).toNat

/-- The call `getMinutes()` under the same conventions. -/
def getMinutes (localOffset t : Int) : Nat :=
  (((t + localOffset * 60000) / 60000) % 60).toNat

/-- The call `s.trim()`. -/
def trim (s : String) : String :=
  String.mk (trimWhiteSpace s.toList)

/-- The field `PHtime`: `utcTime` and `localTime` are both the issued instant,
the second moved by `setHours(getHours() + 8)`, which with a fixed offset is
eight hours later. -/
def phTime (localOffset issued : Int) : String :=
  pad2 (getHours localOffset issued) ++ ":" ++ pad2 (getMinutes localOffset issued)
    ++ " UTC (" ++ pad2 (getHours localOffset (issued + 8 * 3600000)) ++ ":"
    ++ pad2 (getMinutes localOffset (issued + 8 * 3600000))
    ++ " [[Philippine Standard Time|PHT]])"

/-- The method `_generateTemplate(bulletin, signals)`, the bulletin given by
the instant its `issued_timestamp` denotes. -/
def _generateTemplate (localOffset issued : Int) (signals : Levels String) : String :=
  "\x7b\x7bTyphoonWarningsTable\n"
    ++ "| PHtime = " ++ phTime localOffset issued ++ "\n"
    ++ "| PH5 = " ++ trim signals.signal5 ++ "\n"
    ++ "| PH4 = " ++ trim signals.signal4 ++ "\n"
    ++ "| PH3 = " ++ trim signals.signal3 ++ "\n"
    ++ "| PH2 = " ++ trim signals.signal2 ++ "\n"
    ++ "| PH1 = " ++ trim signals.signal1 ++ "\n"
    ++ "| PHsource = [http://bagong.pagasa.dost.gov.ph/tropical-cyclone/severe-weather-bulletin/2 PAGASA]\n"
    ++ "\x7d\x7d"

/-! ## `getWarningSignalsTemplate` -/

/-- The object under `typhoon`; the converter reads none of it. -/
structure Typhoon where
  name : String
deriving DecidableEq

/-- A bulletin: `typhoon` is `none` when `null`, `issued_timestamp` is the
instant denoted by `bulletin.issued_timestamp` in milliseconds since the
epoch, `storm_signals` gives for each signal its `affected_areas`. -/
structure Bulletin where
  typhoon : Option Typhoon
  issued_timestamp : Int
  storm_signals : Levels (Option Landmasses)
deriving DecidableEq

/-- The argument of `getWarningSignalsTemplate`. -/
inductive BulletinInput where
  | undefined
  | text (json : String)
  | object (bulletin : Bulletin)

/-- What the converter obtains from outside: the bulletin pulled by the
scraper, `JSON.parse`, the titles returned by Wikipedia for the category of
provinces, and the offset of the local time of the machine in minutes. -/
structure Collaborators where
  pullBulletin : Bulletin
  jsonParse : String → Except JSError Bulletin
  categoryMembers : List String
  localOffset : Int

/-- The fields of the converter written during a run. -/
structure Converter where
  issues : IssueLog
  provinces : Option (List String)
deriving DecidableEq

/-- The property `issues` of a result: `false`, the list of messages of the
run without typhoon, or the array `this.issues`. -/
inductive ResultIssues where
  | none
  | messages (list : List String)
  | issues (list : List Issue)
deriving DecidableEq

/-- The object returned by `getWarningSignalsTemplate`. -/
structure RenderResult where
  issues : ResultIssues
  template : String
deriving DecidableEq

/-- The bulletin worked on: pulled when the argument is undefined, parsed
when it is a string. -/
def resolveBulletin (world : Collaborators) : BulletinInput → Except JSError Bulletin
  | .undefined => .ok world.pullBulletin
  | .text json => world.jsonParse json
  | .object bulletin => .ok bulletin

/-- The method `getWarningSignalsTemplate(bulletin)`: the result, or the
error thrown, and the converter afterwards. The property `issues` of the
result is read before the template is rendered: it is `false` when
`this.issues` is still undefined then, and otherwise the array itself, which
at return also holds what rendering pushed. -/
def getWarningSignalsTemplate (world : Collaborators) (regions : List Region)
    (self : Converter) (input : BulletinInput) : Except JSError RenderResult × Converter :=
  match resolveBulletin world input with
  | .error e => (.error e, self)
  | .ok bulletin =>
    match bulletin.typhoon with
    | none =>
      (.ok ⟨.messages ["There is no active typhoon bulletin."],
          "\x27\x27No active typhoon warning signals.\x27\x27"⟩, self)
    | some _ =>
      let parsedTCWS := _reorganizeSignals regions bulletin.storm_signals self.issues
      let rendered := _toWikitext world.categoryMembers regions parsedTCWS.1 parsedTCWS.2
      match rendered.1 with
      | .error e => (.error e, ⟨rendered.2, some world.categoryMembers⟩)
      | .ok signals =>
        (.ok ⟨(match parsedTCWS.2 with
                | none => .none
                | some _ => .issues (IssueLog.entries rendered.2)),
              _generateTemplate world.localOffset bulletin.issued_timestamp signals⟩,
          ⟨rendered.2, some world.categoryMembers⟩)

/-! ## Bulletins whose `extras` is `null` -/

/-- The property `extras` as a bulletin may carry it: missing, `null`, or a
list or object. -/
inductive ExtrasField where
  | undefined
  | null
  | value (extras : Extras)
deriving DecidableEq

/-- The record `affected_areas` as a bulletin may carry it. -/
structure AffectedAreas where
  luzon : Option (List AffectedArea)
  visayas : Option (List AffectedArea)
  mindanao : Option (List AffectedArea)
  extras : ExtrasField
deriving DecidableEq

/-- The record as `_landmassesToRegions` works on it once `Object.keys` has
not thrown; none when `extras` is `null`. -/
def AffectedAreas.landmasses (areas : AffectedAreas) : Option Landmasses :=
  match areas.extras with
  | .null => none
  | .undefined => some ⟨areas.luzon, areas.visayas, areas.mindanao, none⟩
  | .value extras => some ⟨areas.luzon, areas.visayas, areas.mindanao, some extras⟩

/-- The list `mixed` of a record. -/
def AffectedAreas.mixed (areas : AffectedAreas) : List AffectedArea :=
  areas.luzon.getD [] ++ areas.visayas.getD [] ++ areas.mindanao.getD []

/-- The method `_landmassesToRegions` on a record whose `extras` may be
`null`: `landmasses["extras"] !== undefined` then holds and
`Object.keys(null)` throws a `TypeError`, before any entry is classified and
before any issue is recorded; on any other record the method runs as
`_landmassesToRegions` gives it. -/
def landmassesToRegionsOrThrow (regions : List Region) (areas : AffectedAreas)
    (issues : IssueLog) : Except JSError ClassifiedAreas × IssueLog :=
  match areas.landmasses with
  | none => (.error .typeError, issues)
  | some landmasses =>
    (.ok (_landmassesToRegions regions landmasses issues).1,
      (_landmassesToRegions regions landmasses issues).2)

/-- One property of `reorganized`, on records whose `extras` may be `null`. -/
def reorganizeSignalOrThrow (regions : List Region) (signal : Option AffectedAreas)
    (issues : IssueLog) : Except JSError (Option ClassifiedAreas) × IssueLog :=
  match signal with
  | none => (.ok none, issues)
  | some areas =>
    andThen (landmassesToRegionsOrThrow regions areas issues)
      (fun byRegion log => (.ok (some byRegion), log))

/-- The method `_reorganizeSignals` on records whose `extras` may be `null`:
the five properties are built from `"1"` to `"5"` and an error ends the call. -/
def reorganizeSignalsOrThrow (regions : List Region) (signals : Levels (Option AffectedAreas))
    (issues : IssueLog) : Except JSError (Levels (Option ClassifiedAreas)) × IssueLog :=
  andThen (reorganizeSignalOrThrow regions signals.signal1 issues) fun r1 log1 =>
  andThen (reorganizeSignalOrThrow regions signals.signal2 log1) fun r2 log2 =>
  andThen (reorganizeSignalOrThrow regions signals.signal3 log2) fun r3 log3 =>
  andThen (reorganizeSignalOrThrow regions signals.signal4 log3) fun r4 log4 =>
  andThen (reorganizeSignalOrThrow regions signals.signal5 log4) fun r5 log5 =>
  (.ok ⟨r1, r2, r3, r4, r5⟩, log5)

/-- The five properties of a record, from `"1"` to `"5"`. -/
def Levels.toList {α : Type} (levels : Levels α) : List α :=
  [levels.signal1, levels.signal2, levels.signal3, levels.signal4, levels.signal5]

/-- The records of the five signals as `_landmassesToRegions` works on them,
a signal whose `extras` is `null` left without one. -/
def landmassesOf (signals : Levels (Option AffectedAreas)) : Levels (Option Landmasses) :=
  ⟨signals.signal1.bind AffectedAreas.landmasses, signals.signal2.bind AffectedAreas.landmasses,
    signals.signal3.bind AffectedAreas.landmasses, signals.signal4.bind AffectedAreas.landmasses,
    signals.signal5.bind AffectedAreas.landmasses⟩

/-! ## Specification-side definitions -/

/-- Specification of first-match: the index, counted from `index`, of the
first region whose province list holds the province. -/
def firstRegionFrom (province : String) : List Region → Nat → Option Nat
  | [], _ => none
  | r :: rest, index =>
    if r.provinces.contains province then some index
    else firstRegionFrom province rest (index + 1)

/-- Specification of the bucket of an entry: the first region listing its
province, `"_"` when no region does. -/
def assignedBucket (regions : List Region) (entry : AffectedArea) : BucketKey :=
  match firstRegionFrom entry.province regions 0 with
  | some i => .region i
  | none => .unclassified

/-- The entries of all buckets, bucket after bucket. -/
def allEntries : ClassifiedAreas → List AffectedArea
  | [] => []
  | (_, bucket) :: rest => bucket ++ allEntries rest

/-- The issue recorded for an entry left without a region: none when its
province is listed by some region or ends in `Island`/`Islands`. -/
def regionIssue (regions : List Region) (entry : AffectedArea) : Option Issue :=
  if (∀ r ∈ regions, entry.province ∉ r.provinces) ∧ testIslands entry.province = false then
    some (.entry ("Region for " ++ entry.province ++ " not found.") entry)
  else none

/-- Specification of the bucket of a key: the entries of `mixed` assigned to
the key, in the order of `mixed`. -/
def bucketOf (regions : List Region) (landmasses : Landmasses) (key : BucketKey) :
    List AffectedArea :=
  (mixed landmasses).filter (fun e => assignedBucket regions e = key)

/-- Specification of the order in which the buckets of a classified signal
are rendered: bucket `"_"` when it has entries, without region, then the
region buckets that have entries by ascending region index. -/
def renderingOrder (regions : List Region) (landmasses : Landmasses) :
    List (Option Region × List AffectedArea) :=
  (if bucketOf regions landmasses .unclassified = [] then []
    else [(none, bucketOf regions landmasses .unclassified)])
  ++ ((List.range regions.length).filter
        (fun i => bucketOf regions landmasses (.region i) ≠ [])).map
      (fun i => (regions[i]?, bucketOf regions landmasses (.region i)))

/-- An area that says it is a part of a province carries an `includes`
record with a term. -/
def WellFormedArea (v : AffectedArea) : Prop :=
  v.part = some true → (v.includes.bind Includes.term).isSome = true

instance (v : AffectedArea) : Decidable (WellFormedArea v) := by
  unfold WellFormedArea
  infer_instance

/-- The areas of all landmass lists of all signals of a bulletin. -/
def allAreas (signals : Levels (Option Landmasses)) : List AffectedArea :=
  (signals.signal1.map mixed).getD [] ++ (signals.signal2.map mixed).getD []
    ++ (signals.signal3.map mixed).getD [] ++ (signals.signal4.map mixed).getD []
    ++ (signals.signal5.map mixed).getD []

/-- A step whose value does not depend on the issue log it starts from and
which appends to that log the issues it appends to an undefined log. -/
def LogUniform {α : Type} (f : IssueLog → α × IssueLog) : Prop :=
  ∀ log, (f log).1 = (f none).1
    ∧ IssueLog.entries (f log).2 = IssueLog.entries log ++ IssueLog.entries (f none).2

/-- The texts of a list one after the other. -/
def joinText : List String → String
  | [] => ""
  | text :: rest => text ++ joinText rest

/-- Specification of the line of one bullet: the line `_getProvinceAsBullet`
returns for the area under the bullet string, empty when the call throws. -/
def bulletLine (provinces : List String) (bulletString : String) (v : AffectedArea) : String :=
  match (_getProvinceAsBullet provinces v bulletString none).1 with
  | .ok line => line
  | .error _ => ""

/-- Specification of the text of a signal: empty without entry in
`storm_signals`; otherwise a newline, then, when bucket `"_"` has entries, a
newline and one `*` bullet for each of them, then for every region that has
entries, by ascending index, the header of the region and one `**` bullet
for each of its entries, the entries of a bucket in input order. -/
def signalText (provinces : List String) (regions : List Region) :
    Option Landmasses → String
  | none => ""
  | some landmasses =>
    "\n"
      ++ (if bucketOf regions landmasses .unclassified = [] then ""
          else "\n" ++ joinText
            ((bucketOf regions landmasses .unclassified).map (bulletLine provinces "*")))
      ++ joinText
          (((List.range regions.length).filter
              (fun i => bucketOf regions landmasses (.region i) ≠ [])).map
            (fun i => _getRegionHeader regions[i]?
              ++ joinText
                ((bucketOf regions landmasses (.region i)).map (bulletLine provinces "**"))))

/-! ## Sample inputs -/

/-- A region table in which the regions at index 1 and 2 both list `Biliran`. -/
def duplicateRegions : List Region :=
  [⟨"Ilocos Region", none, some "Region I", ["Ilocos Norte", "Ilocos Sur"]⟩,
   ⟨"Eastern Visayas", none, some "Region VIII", ["Leyte", "Biliran"]⟩,
   ⟨"Central Visayas", none, some "Region VII", ["Biliran", "Cebu"]⟩]

/-- An area that is a whole province. -/
def wholeProvince (province : String) : AffectedArea :=
  ⟨province, none, none⟩

/-- Signals of which only signal 3 is raised, for the whole province of Cebu. -/
def signalThreeCebu : Levels (Option Landmasses) :=
  ⟨none, none, some ⟨none, some [wholeProvince "Cebu"], none, none⟩, none, none⟩

/-- Signals of which only signal 1 is raised, for a part of Cagayan and for a
province that no region lists and that has no page. -/
def signalOneParts : Levels (Option Landmasses) :=
  ⟨some ⟨some [⟨"Cagayan", some true,
        some ⟨some "portion", some "northern", some ["Sta. Ana", "Gonzaga"]⟩⟩,
      wholeProvince "Atlantis"], none, none, none⟩, none, none, none, none⟩

/-- Signals of which only signal 2 is raised, for five entries that create
the buckets in the order region 2, `"_"`, region 1, region 0. -/
def signalTwoMixed : Levels (Option Landmasses) :=
  ⟨none, some ⟨some [wholeProvince "Cebu", wholeProvince "Atlantis"],
      some [wholeProvince "Leyte", wholeProvince "Ilocos Sur"], some [wholeProvince "Cebu"],
      none⟩, none, none, none⟩

/-- Signals of which only signal 1 is raised, for a province that no region
lists and that has no page. -/
def signalOneAtlantis : Levels (Option Landmasses) :=
  ⟨some ⟨some [wholeProvince "Atlantis"], none, none, none⟩, none, none, none, none⟩

/-- Collaborators of a machine eight hours ahead of UTC, with `Cebu` the only
page of the category. -/
def sampleWorld : Collaborators :=
  ⟨⟨none, 0, ⟨none, none, none, none, none⟩⟩, fun _ => .error .syntaxError, ["Cebu"], 480⟩

/-- Signals of which only signal 1 is raised, for a part of Cebu given
without `includes`. -/
def signalOneBare : Levels (Option Landmasses) :=
  ⟨some ⟨none, some [⟨"Cebu", some true, none⟩], none, none⟩, none, none, none, none⟩

/-- Signals of which only signal 1 is raised, for a part of Cebu given
without `includes`, with `extras` missing. -/
def signalOneBareAreas : Levels (Option AffectedAreas) :=
  ⟨some ⟨none, some [⟨"Cebu", some true, none⟩], none, .undefined⟩, none, none, none, none⟩

/-- Signals of which only signal 1 is raised, for the whole province of Cebu,
with `extras: null`. -/
def signalOneNullExtras : Levels (Option AffectedAreas) :=
  ⟨some ⟨some [wholeProvince "Cebu"], none, none, .null⟩, none, none, none, none⟩

/-- Signals 1 and 4: signal 1 for a part of Cagayan and a province that no
region lists, with a list of extras; signal 4 for Cebu after Leyte, with
`extras` missing. -/
def signalsOneAndFour : Levels (Option AffectedAreas) :=
  ⟨some ⟨some [⟨"Cagayan", some true,
        some ⟨some "portion", some "northern", some ["Sta. Ana", "Gonzaga"]⟩⟩,
      wholeProvince "Atlantis"], none, none, .value (.array [wholeProvince "Bohol"])⟩,
    none, none,
    some ⟨none, some [wholeProvince "Cebu", wholeProvince "Leyte"], none, .undefined⟩, none⟩

/-- A province existence set with the pages of Cebu and Leyte and the page
`Ilocos Sur (province)`. -/
def samplePages : List String :=
  ["Cebu", "Leyte", "Ilocos Sur (province)"]

/-! ## Lemmas on `byRegion` -/

theorem getBucket_pushEntry (byRegion : ClassifiedAreas) (key k : BucketKey)
    (entry : AffectedArea) :
    getBucket (pushEntry byRegion key entry) k =
      if k = key then some ((getBucket byRegion key).getD [] ++ [entry])
      else getBucket byRegion k := by
  induction byRegion with
  | nil =>
    by_cases h : k = key
    · simp [pushEntry, getBucket, h]
    · have h2 : ¬ key = k := fun h3 => h h3.symm
      simp [pushEntry, getBucket, h, h2]
  | cons head rest ih =>
    obtain ⟨k0, b0⟩ := head
    by_cases h0 : k0 = key
    · subst h0
      by_cases h : k = k0
      · subst h
        simp [pushEntry, getBucket]
      · have h2 : ¬ k0 = k := fun h3 => h h3.symm
        simp [pushEntry, getBucket, h, h2]
    · by_cases h : k = key
      · subst h
        simp [pushEntry, getBucket, h0, ih]
      · by_cases h1 : k0 = k
        · simp [pushEntry, getBucket, h0, h, h1]
        · simp [pushEntry, getBucket, h0, h, h1, ih]

theorem keys_pushEntry (byRegion : ClassifiedAreas) (key : BucketKey) (entry : AffectedArea) :
    (pushEntry byRegion key entry).map Prod.fst =
      if key ∈ byRegion.map Prod.fst then byRegion.map Prod.fst
      else byRegion.map Prod.fst ++ [key] := by
  induction byRegion with
  | nil => simp [pushEntry]
  | cons head rest ih =>
    obtain ⟨k0, b0⟩ := head
    by_cases h0 : k0 = key
    · subst h0
      simp [pushEntry]
    · have h2 : ¬ key = k0 := fun h3 => h0 h3.symm
      by_cases h : key ∈ rest.map Prod.fst
      · simp only [pushEntry, h0, if_false, List.map_cons, ih, h, if_true, List.mem_cons,
          or_true]
      · simp only [pushEntry, h0, if_false, List.map_cons, ih, h, List.mem_cons, h2, or_self,
          List.cons_append]

theorem nodup_keys_pushEntry (byRegion : ClassifiedAreas) (key : BucketKey)
    (entry : AffectedArea) (h : (byRegion.map Prod.fst).Nodup) :
    ((pushEntry byRegion key entry).map Prod.fst).Nodup := by
  rw [keys_pushEntry]
  by_cases hk : key ∈ byRegion.map Prod.fst
  · simpa [hk] using h
  · simp only [hk, if_false]
    exact List.Nodup.append h (List.nodup_singleton key) (by simpa using hk)

theorem allEntries_pushEntry (byRegion : ClassifiedAreas) (key : BucketKey)
    (entry : AffectedArea) :
    (allEntries (pushEntry byRegion key entry)).Perm (allEntries byRegion ++ [entry]) := by
  induction byRegion with
  | nil => simp [pushEntry, allEntries]
  | cons head rest ih =>
    obtain ⟨k0, b0⟩ := head
    by_cases h0 : k0 = key
    · simp only [pushEntry, h0, if_true, allEntries, List.append_assoc]
      exact List.Perm.append_left b0 List.perm_append_comm
    · simp only [pushEntry, h0, if_false, allEntries, List.append_assoc]
      exact List.Perm.append_left b0 ih

theorem getBucket_of_mem (byRegion : ClassifiedAreas) (k : BucketKey)
    (bucket : List AffectedArea) (hn : (byRegion.map Prod.fst).Nodup)
    (hm : (k, bucket) ∈ byRegion) : getBucket byRegion k = some bucket := by
  induction byRegion with
  | nil => simp at hm
  | cons head rest ih =>
    obtain ⟨k0, b0⟩ := head
    simp only [List.map_cons, List.nodup_cons] at hn
    rcases List.mem_cons.1 hm with h | h
    · cases h
      simp [getBucket]
    · have hk : k ∈ rest.map Prod.fst := List.mem_map.2 ⟨(k, bucket), h, rfl⟩
      have h0 : ¬ k0 = k := fun h3 => hn.1 (h3 ▸ hk)
      simp [getBucket, h0, ih hn.2 h]

theorem mem_of_getBucket (byRegion : ClassifiedAreas) (k : BucketKey)
    (bucket : List AffectedArea) (h : getBucket byRegion k = some bucket) :
    (k, bucket) ∈ byRegion := by
  induction byRegion with
  | nil => simp [getBucket] at h
  | cons head rest ih =>
    obtain ⟨k0, b0⟩ := head
    by_cases h0 : k0 = k
    · simp only [getBucket, h0, if_true, Option.some.injEq] at h
      simp [h0, h]
    · simp only [getBucket, h0, if_false] at h
      exact List.mem_cons_of_mem _ (ih h)

/-! ## Lemmas on the classification loop -/

theorem scanRegions_found (entry : AffectedArea) (regions : List Region) (index : Nat)
    (byRegion : ClassifiedAreas) :
    scanRegions entry regions index (true, byRegion) = (true, byRegion) := by
  induction regions generalizing index with
  | nil => rfl
  | cons r rest ih => simp [scanRegions, ih]

theorem scanRegions_eq (entry : AffectedArea) (regions : List Region) (index : Nat)
    (byRegion : ClassifiedAreas) :
    scanRegions entry regions index (false, byRegion) =
      match firstRegionFrom entry.province regions index with
      | some i => (true, pushEntry byRegion (.region i) entry)
      | none => (false, byRegion) := by
  induction regions generalizing index with
  | nil => rfl
  | cons r rest ih =>
    by_cases h : entry.province ∈ r.provinces
    · simp [scanRegions, firstRegionFrom, h, scanRegions_found]
    · simp [scanRegions, firstRegionFrom, h, ih]

theorem firstRegionFrom_none (province : String) (regions : List Region) (index : Nat) :
    firstRegionFrom province regions index = none ↔ ∀ r ∈ regions, province ∉ r.provinces := by
  induction regions generalizing index with
  | nil => simp [firstRegionFrom]
  | cons r rest ih =>
    by_cases h : province ∈ r.provinces
    · simp [firstRegionFrom, h]
    · simp [firstRegionFrom, h, ih]

theorem firstRegionFrom_some (province : String) (regions : List Region) (index i : Nat)
    (r : Region) (hr : regions[i]? = some r) (hin : province ∈ r.provinces)
    (hfirst : ∀ j r', j < i → regions[j]? = some r' → province ∉ r'.provinces) :
    firstRegionFrom province regions index = some (index + i) := by
  induction regions generalizing index i with
  | nil => simp at hr
  | cons r0 rest ih =>
    cases i with
    | zero =>
      simp only [List.getElem?_cons_zero, Option.some.injEq] at hr
      subst hr
      simp [firstRegionFrom, hin]
    | succ n =>
      have h0 : province ∉ r0.provinces := hfirst 0 r0 (Nat.succ_pos n) (by simp)
      simp only [List.getElem?_cons_succ] at hr
      have hrest := ih (index + 1) n hr (fun j r' hj hjr =>
        hfirst (j + 1) r' (Nat.succ_lt_succ hj) (by simpa using hjr))
      have hc : r0.provinces.contains province = false := by simpa using h0
      simp only [firstRegionFrom, hc, Bool.false_eq_true, if_false]
      rw [hrest, Nat.add_assoc, Nat.add_comm 1 n]

theorem assignedBucket_unclassified (regions : List Region) (entry : AffectedArea) :
    assignedBucket regions entry = .unclassified ↔
      ∀ r ∈ regions, entry.province ∉ r.provinces := by
  rw [← firstRegionFrom_none entry.province regions 0]
  unfold assignedBucket
  cases firstRegionFrom entry.province regions 0 <;> simp

theorem classifyEntry_eq (regions : List Region) (state : ClassifiedAreas × IssueLog)
    (entry : AffectedArea) :
    classifyEntry regions state entry =
      (pushEntry state.1 (assignedBucket regions entry) entry,
        match regionIssue regions entry with
        | some issue => _issue issue state.2
        | none => state.2) := by
  have hnone := firstRegionFrom_none entry.province regions 0
  unfold classifyEntry assignedBucket regionIssue
  rw [scanRegions_eq]
  cases hf : firstRegionFrom entry.province regions 0 with
  | some i =>
    have hex : ¬ ∀ r ∈ regions, entry.province ∉ r.provinces := by
      intro hall
      rw [hnone.2 hall] at hf
      cases hf
    simp [hex]
  | none =>
    have hall : ∀ r ∈ regions, entry.province ∉ r.provinces := hnone.1 hf
    cases hi : testIslands entry.province
    · simp only [hf, hi, Bool.not_false, if_true, and_true, if_pos hall]
    · simp [hi]

/-- The buckets built by the loop from `byRegion` over the entries `l`. -/
theorem foldl_classify_fst (regions : List Region) (l : List AffectedArea)
    (state : ClassifiedAreas × IssueLog) :
    (l.foldl (classifyEntry regions) state).1 =
      l.foldl (fun acc e => pushEntry acc (assignedBucket regions e) e) state.1 := by
  induction l generalizing state with
  | nil => rfl
  | cons e rest ih => simp [List.foldl_cons, ih, classifyEntry_eq]

theorem foldl_classify_snd (regions : List Region) (l : List AffectedArea)
    (state : ClassifiedAreas × IssueLog) :
    IssueLog.entries (l.foldl (classifyEntry regions) state).2 =
      IssueLog.entries state.2 ++ l.filterMap (regionIssue regions) := by
  induction l generalizing state with
  | nil => simp
  | cons e rest ih =>
    rw [List.foldl_cons, ih, classifyEntry_eq, List.filterMap_cons]
    cases regionIssue regions e <;> simp [IssueLog.entries, _issue]

theorem foldl_push_nodup (regions : List Region) (l : List AffectedArea)
    (acc : ClassifiedAreas) (h : (acc.map Prod.fst).Nodup) :
    ((l.foldl (fun acc e => pushEntry acc (assignedBucket regions e) e) acc).map
      Prod.fst).Nodup := by
  induction l generalizing acc with
  | nil => exact h
  | cons e rest ih => exact ih _ (nodup_keys_pushEntry acc _ e h)

theorem foldl_push_perm (regions : List Region) (l : List AffectedArea)
    (acc : ClassifiedAreas) :
    (allEntries (l.foldl (fun acc e => pushEntry acc (assignedBucket regions e) e) acc)).Perm
      (allEntries acc ++ l) := by
  induction l generalizing acc with
  | nil => simp
  | cons e rest ih =>
    refine (ih _).trans ?_
    have h := (allEntries_pushEntry acc (assignedBucket regions e) e).append_right rest
    simpa using h

theorem foldl_push_getBucket (regions : List Region) (l : List AffectedArea)
    (acc : ClassifiedAreas) (k : BucketKey) :
    getBucket (l.foldl (fun acc e => pushEntry acc (assignedBucket regions e) e) acc) k =
      if l.filter (fun e => assignedBucket regions e = k) = [] then getBucket acc k
      else some ((getBucket acc k).getD []
        ++ l.filter (fun e => assignedBucket regions e = k)) := by
  induction l generalizing acc with
  | nil => simp
  | cons e rest ih =>
    rw [List.foldl_cons, ih, getBucket_pushEntry]
    by_cases hk : assignedBucket regions e = k
    · subst hk
      by_cases hr : rest.filter (fun x => assignedBucket regions x = assignedBucket regions e) = []
      · simp [hr]
      · simp [hr]
    · have hk2 : ¬ k = assignedBucket regions e := fun h3 => hk h3.symm
      simp [hk, hk2]

theorem allEntries_length (byRegion : ClassifiedAreas) :
    (allEntries byRegion).length = (byRegion.map (fun b => b.2.length)).sum := by
  induction byRegion with
  | nil => rfl
  | cons head rest ih =>
    obtain ⟨k0, b0⟩ := head
    simp [allEntries, ih]

theorem landmasses_fst (regions : List Region) (landmasses : Landmasses) (issues : IssueLog) :
    (_landmassesToRegions regions landmasses issues).1 =
      (mixed landmasses).foldl (fun acc e => pushEntry acc (assignedBucket regions e) e) [] := by
  unfold _landmassesToRegions
  rw [foldl_classify_fst]

theorem landmasses_nodup (regions : List Region) (landmasses : Landmasses) (issues : IssueLog) :
    ((_landmassesToRegions regions landmasses issues).1.map Prod.fst).Nodup := by
  rw [landmasses_fst]
  exact foldl_push_nodup regions _ [] List.nodup_nil

theorem landmasses_getBucket (regions : List Region) (landmasses : Landmasses)
    (issues : IssueLog) (k : BucketKey) :
    getBucket (_landmassesToRegions regions landmasses issues).1 k =
      if (mixed landmasses).filter (fun e => assignedBucket regions e = k) = [] then none
      else some ((mixed landmasses).filter (fun e => assignedBucket regions e = k)) := by
  rw [landmasses_fst, foldl_push_getBucket]
  simp [getBucket]

theorem landmasses_bucket_eq (regions : List Region) (landmasses : Landmasses)
    (issues : IssueLog) (k : BucketKey) (bucket : List AffectedArea)
    (h : (k, bucket) ∈ (_landmassesToRegions regions landmasses issues).1) :
    bucket = (mixed landmasses).filter (fun e => assignedBucket regions e = k) := by
  have hg := getBucket_of_mem _ k bucket (landmasses_nodup regions landmasses issues) h
  rw [landmasses_getBucket] at hg
  by_cases hf : (mixed landmasses).filter (fun e => assignedBucket regions e = k) = []
  · simp [hf] at hg
  · simpa [hf] using hg.symm

theorem landmasses_mem_bucket (regions : List Region) (landmasses : Landmasses)
    (issues : IssueLog) (e : AffectedArea) (he : e ∈ mixed landmasses) :
    ∃ bucket, getBucket (_landmassesToRegions regions landmasses issues).1
        (assignedBucket regions e) = some bucket ∧ e ∈ bucket := by
  have hmem : e ∈ (mixed landmasses).filter
      (fun x => assignedBucket regions x = assignedBucket regions e) := by
    simp [List.mem_filter, he]
  refine ⟨_, ?_, hmem⟩
  rw [landmasses_getBucket]
  have hne : (mixed landmasses).filter
      (fun x => assignedBucket regions x = assignedBucket regions e) ≠ [] :=
    List.ne_nil_of_mem hmem
  simp only [hne, if_false]

/-! ## Claims on `_landmassesToRegions` -/

/-- C1: the buckets returned by `_landmassesToRegions` hold each input entry
exactly once: their entries taken together are a rearrangement of
`luzon ++ visayas ++ mindanao`, so the bucket sizes add up to the three input
lengths; every key names one bucket; and no entry lies in two buckets. -/
theorem landmassesToRegions_partition (regions : List Region) (landmasses : Landmasses)
    (issues : IssueLog) :
    ((_landmassesToRegions regions landmasses issues).1.map (fun b => b.2.length)).sum =
        (landmasses.luzon.getD []).length + (landmasses.visayas.getD []).length
          + (landmasses.mindanao.getD []).length
      ∧ (allEntries (_landmassesToRegions regions landmasses issues).1).Perm
        (landmasses.luzon.getD [] ++ landmasses.visayas.getD [] ++ landmasses.mindanao.getD [])
      ∧ ((_landmassesToRegions regions landmasses issues).1.map Prod.fst).Nodup
      ∧ ∀ k₁ b₁ k₂ b₂ e,
          (k₁, b₁) ∈ (_landmassesToRegions regions landmasses issues).1 →
          (k₂, b₂) ∈ (_landmassesToRegions regions landmasses issues).1 →
          e ∈ b₁ → e ∈ b₂ → k₁ = k₂ := by
  have hperm : (allEntries (_landmassesToRegions regions landmasses issues).1).Perm
      (mixed landmasses) := by
    rw [landmasses_fst]
    simpa [allEntries] using foldl_push_perm regions (mixed landmasses) []
  refine ⟨?_, hperm, landmasses_nodup regions landmasses issues, ?_⟩
  · rw [← allEntries_length, hperm.length_eq]
    simp [mixed, Nat.add_assoc]
  · intro k₁ b₁ k₂ b₂ e h₁ h₂ he₁ he₂
    rw [landmasses_bucket_eq regions landmasses issues k₁ b₁ h₁] at he₁
    rw [landmasses_bucket_eq regions landmasses issues k₂ b₂ h₂] at he₂
    have e₁ := (List.mem_filter.1 he₁).2
    have e₂ := (List.mem_filter.1 he₂).2
    simp only [decide_eq_true_eq] at e₁ e₂
    rw [← e₁, ← e₂]

/-- C2: first match wins. An input entry whose province is listed by the
region at index `i` and by no region before it lies in the bucket of region
`i`, and in no other bucket, whatever later regions list. -/
theorem landmassesToRegions_first_match (regions : List Region) (landmasses : Landmasses)
    (issues : IssueLog) (e : AffectedArea) (i : Nat) (r : Region)
    (he : e ∈ landmasses.luzon.getD [] ++ landmasses.visayas.getD []
      ++ landmasses.mindanao.getD [])
    (hr : regions[i]? = some r) (hin : e.province ∈ r.provinces)
    (hfirst : ∀ j r', j < i → regions[j]? = some r' → e.province ∉ r'.provinces) :
    (∃ bucket, getBucket (_landmassesToRegions regions landmasses issues).1 (.region i)
        = some bucket ∧ e ∈ bucket)
      ∧ ∀ k bucket, (k, bucket) ∈ (_landmassesToRegions regions landmasses issues).1 →
          e ∈ bucket → k = .region i := by
  have hk : assignedBucket regions e = .region i := by
    have h := firstRegionFrom_some e.province regions 0 i r hr hin hfirst
    simp [assignedBucket, h]
  constructor
  · have h := landmasses_mem_bucket regions landmasses issues e he
    rwa [hk] at h
  · intro k bucket hm hb
    rw [landmasses_bucket_eq regions landmasses issues k bucket hm] at hb
    have e₁ := (List.mem_filter.1 hb).2
    simp only [decide_eq_true_eq] at e₁
    rw [← e₁, hk]

/-- C2, on a table whose regions 1 and 2 both list `Biliran`: the entry goes
to region 1. -/
theorem landmassesToRegions_first_match_witness :
    (wholeProvince "Biliran" ∈ [wholeProvince "Cebu", wholeProvince "Biliran"])
      ∧ duplicateRegions[1]? = some ⟨"Eastern Visayas", none, some "Region VIII",
          ["Leyte", "Biliran"]⟩
      ∧ "Biliran" ∈ ["Leyte", "Biliran"]
      ∧ "Biliran" ∈ ["Biliran", "Cebu"]
      ∧ ((∃ bucket, getBucket (_landmassesToRegions duplicateRegions
            ⟨none, some [wholeProvince "Cebu", wholeProvince "Biliran"], none, none⟩ none).1
            (.region 1) = some bucket ∧ wholeProvince "Biliran" ∈ bucket)
        ∧ ∀ k bucket, (k, bucket) ∈ (_landmassesToRegions duplicateRegions
            ⟨none, some [wholeProvince "Cebu", wholeProvince "Biliran"], none, none⟩ none).1 →
            wholeProvince "Biliran" ∈ bucket → k = .region 1) :=
  ⟨by decide, by decide, by decide, by decide,
    landmassesToRegions_first_match duplicateRegions
      ⟨none, some [wholeProvince "Cebu", wholeProvince "Biliran"], none, none⟩ none
      (wholeProvince "Biliran") 1
      ⟨"Eastern Visayas", none, some "Region VIII", ["Leyte", "Biliran"]⟩
      (by decide) (by decide) (by decide)
      (by
        intro j r' hj hjr
        have hj0 : j = 0 := by omega
        subst hj0
        have hr' : r' = ⟨"Ilocos Region", none, some "Region I",
            ["Ilocos Norte", "Ilocos Sur"]⟩ := by
          simpa [duplicateRegions] using hjr.symm
        subst hr'
        decide)⟩

/-- C3: every bucket is the sub-list of `luzon ++ visayas ++ mindanao` (a
missing list counting as empty) made of the entries assigned to its key, in
the order of that concatenation; a key without entries has no bucket. -/
theorem landmassesToRegions_order (regions : List Region) (landmasses : Landmasses)
    (issues : IssueLog) :
    (∀ k, (getBucket (_landmassesToRegions regions landmasses issues).1 k).getD [] =
        (landmasses.luzon.getD [] ++ landmasses.visayas.getD []
          ++ landmasses.mindanao.getD []).filter (fun e => assignedBucket regions e = k))
      ∧ ∀ k bucket, (k, bucket) ∈ (_landmassesToRegions regions landmasses issues).1 →
          bucket ≠ []
          ∧ bucket = (landmasses.luzon.getD [] ++ landmasses.visayas.getD []
              ++ landmasses.mindanao.getD []).filter (fun e => assignedBucket regions e = k)
          ∧ bucket.Sublist (landmasses.luzon.getD [] ++ landmasses.visayas.getD []
              ++ landmasses.mindanao.getD []) := by
  constructor
  · intro k
    rw [landmasses_getBucket]
    by_cases hf : (mixed landmasses).filter (fun e => assignedBucket regions e = k) = []
    · simp only [hf, if_true, Option.getD_none]
      exact hf.symm
    · simp only [hf, if_false, Option.getD_some]
      rfl
  · intro k bucket hm
    have hb := landmasses_bucket_eq regions landmasses issues k bucket hm
    have hg := getBucket_of_mem _ k bucket (landmasses_nodup regions landmasses issues) hm
    rw [landmasses_getBucket] at hg
    refine ⟨?_, hb, ?_⟩
    · intro hnil
      subst hnil
      by_cases hf : (mixed landmasses).filter (fun e => assignedBucket regions e = k) = []
      · simp [hf] at hg
      · simp only [hf, if_false, Option.some.injEq] at hg
    · rw [hb]
      exact List.filter_sublist _

/-- C4: an entry whose province no region lists is put in bucket `"_"`, and
the issues appended by the loop are, in input order, one
`Region for <province> not found.` issue for each such entry whose province
does not end in `Island` or `Islands`, and nothing else. -/
theorem landmassesToRegions_unmatched (regions : List Region) (landmasses : Landmasses)
    (issues : IssueLog) :
    (∀ e ∈ landmasses.luzon.getD [] ++ landmasses.visayas.getD []
        ++ landmasses.mindanao.getD [],
        (∀ r ∈ regions, e.province ∉ r.provinces) →
        ∃ bucket, getBucket (_landmassesToRegions regions landmasses issues).1 .unclassified
          = some bucket ∧ e ∈ bucket)
      ∧ IssueLog.entries (_landmassesToRegions regions landmasses issues).2 =
        IssueLog.entries (checkExtras landmasses issues)
          ++ (landmasses.luzon.getD [] ++ landmasses.visayas.getD []
              ++ landmasses.mindanao.getD []).filterMap (fun e =>
            if (∀ r ∈ regions, e.province ∉ r.provinces) ∧ testIslands e.province = false then
              some (Issue.entry ("Region for " ++ e.province ++ " not found.") e)
            else none) := by
  constructor
  · intro e he hall
    have h := landmasses_mem_bucket regions landmasses issues e he
    rwa [(assignedBucket_unclassified regions e).2 hall] at h
  · unfold _landmassesToRegions
    rw [foldl_classify_snd]
    rfl

/-! ## Lemmas on strings -/

theorem append_ne_self (s t : String) (ht : t ≠ "") : s ++ t ≠ s := by
  intro h
  have hd := congrArg String.data h
  rw [String.data_append] at hd
  have hnil : t.data = [] := by simpa using hd
  exact ht (String.ext hnil)

theorem append_ne_empty (s t : String) (ht : t ≠ "") : s ++ t ≠ "" := by
  intro h
  have hd := congrArg String.data h
  rw [String.data_append] at hd
  have hnil : t.data = [] := (List.append_eq_nil.1 hd).2
  exact ht (String.ext hnil)

/-! ## Claims on `_getProvinceAsBullet` -/

/-- C5: for an area with no sub-area part and province `P`, the existence set
holding page titles, none of them empty, the bullet is the bullet string, a
space, the link and a newline, where the link is `[[P]]` when `P` is in the
existence set, is `Metro Manila` or ends in `Island`/`Islands`; else
`[[P (province)|P]]` when `P (province)` is in the set; else the plain text
`P`. -/
theorem getProvinceAsBullet_link (provinces : List String) (v : AffectedArea)
    (bulletString : String) (issues : IssueLog)
    (hpart : v.part.getD false = false) (htitles : "" ∉ provinces) :
    (_getProvinceAsBullet provinces v bulletString issues).1 =
      .ok (bulletString ++ " "
        ++ (if v.province ∈ provinces ∨ v.province = "Metro Manila"
              ∨ testIslands v.province = true then
            "[[" ++ v.province ++ "]]"
          else if v.province ++ " (province)" ∈ provinces then
            "[[" ++ (v.province ++ " (province)") ++ "|" ++ v.province ++ "]]"
          else v.province)
        ++ "\n") := by
  have h1 : v.province ++ " (province)" ≠ v.province :=
    append_ne_self _ _ (by decide)
  have h2 : v.province ++ " (province)" ≠ "" := append_ne_empty _ _ (by decide)
  unfold _getProvinceAsBullet
  simp only [hpart, Bool.not_false, if_true]
  congr 3
  unfold findProvincePage provinceLink
  by_cases hin : v.province ∈ provinces
  · have hne : v.province ≠ "" := fun h => htitles (h ▸ hin)
    simp [hin, hne]
  · by_cases hmm : v.province = "Metro Manila"
    · simp [hin, hmm]
    · by_cases hisl : testIslands v.province = true
      · have hne : v.province ≠ "" := by
          intro h
          rw [h] at hisl
          revert hisl
          decide
        simp [hin, hmm, hisl, hne]
      · simp only [Bool.not_eq_true] at hisl
        by_cases hp : v.province ++ " (province)" ∈ provinces
        · simp [hin, hmm, hisl, hp, h1, h2]
        · simp [hin, hmm, hisl, hp]

/-- C5 on the two examples: `Bukidnon` in the set, and `Cotabato` absent with
`Cotabato (province)` in the set. -/
theorem getProvinceAsBullet_link_witness :
    ((wholeProvince "Bukidnon").part.getD false = false ∧ "" ∉ ["Bukidnon"]
        ∧ (_getProvinceAsBullet ["Bukidnon"] (wholeProvince "Bukidnon") "**" none).1
          = .ok "** [[Bukidnon]]\n")
      ∧ (_getProvinceAsBullet ["Cotabato (province)"] (wholeProvince "Cotabato") "**" none).1
          = .ok "** [[Cotabato (province)|Cotabato]]\n" :=
  ⟨⟨by decide, by decide,
      (getProvinceAsBullet_link ["Bukidnon"] (wholeProvince "Bukidnon") "**" none
        (by decide) (by decide)).trans (by decide)⟩,
    (getProvinceAsBullet_link ["Cotabato (province)"] (wholeProvince "Cotabato") "**" none
      (by decide) (by decide)).trans (by decide)⟩

/-- C6: `_getProvinceAsBullet` appends exactly the issue
`Page not found for province: P` (carrying `P`) when `P` is not in the
existence set, is not `Metro Manila`, does not end in `Island`/`Islands` and
`P (province)` is not in the set; in every other case the log is unchanged. -/
theorem getProvinceAsBullet_issue (provinces : List String) (v : AffectedArea)
    (bulletString : String) (issues : IssueLog) :
    (_getProvinceAsBullet provinces v bulletString issues).2 =
      if v.province ∉ provinces ∧ v.province ≠ "Metro Manila"
          ∧ testIslands v.province = false
          ∧ v.province ++ " (province)" ∉ provinces then
        some (IssueLog.entries issues
          ++ [Issue.province ("Page not found for province: " ++ v.province) v.province])
      else issues := by
  have hsnd : (_getProvinceAsBullet provinces v bulletString issues).2 =
      (findProvincePage provinces v issues).2 := by
    unfold _getProvinceAsBullet
    split
    · rfl
    · split
      · rfl
      · split
        · rfl
        · split
          · rfl
          · split
            · rfl
            · split <;> rfl
  rw [hsnd]
  unfold findProvincePage
  by_cases hin : v.province ∈ provinces
  · simp [hin]
  · by_cases hmm : v.province = "Metro Manila"
    · simp [hin, hmm]
    · by_cases hisl : testIslands v.province = true
      · simp [hin, hmm, hisl]
      · simp only [Bool.not_eq_true] at hisl
        by_cases hp : v.province ++ " (province)" ∈ provinces
        · simp [hin, hmm, hisl, hp]
        · simp [hin, hmm, hisl, hp, _issue, IssueLog.entries]

/-- C7, as stated, fails for an area with a sub-area part and no `includes`
record, or an `includes` record without a term: reading `includes.term` of it
throws and no line is produced. -/
theorem getProvinceAsBullet_subarea_counterexample :
    (_getProvinceAsBullet ["Cebu"] ⟨"Cebu", some true, none⟩ "**" none).1
        = .error .typeError
      ∧ (_getProvinceAsBullet ["Cebu"]
          ⟨"Cebu", some true, some ⟨none, some "northern", none⟩⟩ "**" none).1
        = .error .typeError := by
  decide

/-- C7, amended: for an area with a sub-area part whose `includes` record is
present and has a term, the line is `B Mainland L` when the term, its letters
`A`-`Z` lowered, is `mainland`, `B rest of L` when it is `rest`, and
otherwise `B <part> <term> of L` (a missing part printed as `undefined`)
followed, for a non-empty list of municipalities, by ` {{small|(...)}}`
holding their links in input order joined by `, `; each line ends with a
newline and no error is raised. `L` is the province link. -/
theorem getProvinceAsBullet_subarea (provinces : List String) (v : AffectedArea)
    (includes : Includes) (term : String) (bulletString : String) (issues : IssueLog)
    (hpart : v.part = some true) (hincludes : v.includes = some includes)
    (hterm : includes.term = some term) :
    (_getProvinceAsBullet provinces v bulletString issues).1 =
      if term.toList.map Char.toLower = ['m', 'a', 'i', 'n', 'l', 'a', 'n', 'd'] then
        .ok (bulletString ++ " Mainland "
          ++ provinceLink (findProvincePage provinces v issues).1 v.province ++ "\n")
      else if term.toList.map Char.toLower = ['r', 'e', 's', 't'] then
        .ok (bulletString ++ " rest of "
          ++ provinceLink (findProvincePage provinces v issues).1 v.province ++ "\n")
      else
        .ok (bulletString ++ " "
          ++ (match includes.part with
              | some part => part
              | none => "undefined")
          ++ " " ++ term ++ " of "
          ++ provinceLink (findProvincePage provinces v issues).1 v.province
          ++ (match includes.municipalities with
              | some (m :: ms) =>
                " \x7b\x7bsmall|("
                  ++ ", ".intercalate ((m :: ms).map (fun name =>
                      "[[" ++ linkTarget name ++ ", " ++ v.province ++ "|" ++ name ++ "]]"))
                  ++ ")\x7d\x7d"
              | _ => "")
          ++ "\n") := by
  have hlow : ∀ word : String, toLowerCase term = word ↔
      term.toList.map Char.toLower = word.toList := by
    intro word
    unfold toLowerCase
    constructor
    · intro h
      rw [← h]
      rfl
    · intro h
      rw [h]
      rfl
  have hm := hlow "mainland"
  have hr := hlow "rest"
  have hmd : "mainland".toList = ['m', 'a', 'i', 'n', 'l', 'a', 'n', 'd'] := by decide
  have hrd : "rest".toList = ['r', 'e', 's', 't'] := by decide
  rw [hmd] at hm
  rw [hrd] at hr
  unfold _getProvinceAsBullet
  simp only [hpart, hincludes, hterm, Option.getD_some, Bool.not_true, Bool.false_eq_true,
    if_false]
  by_cases h1 : toLowerCase term = "mainland"
  · rw [if_pos h1, if_pos (hm.1 h1)]
  · have h1' : ¬ term.toList.map Char.toLower = ['m', 'a', 'i', 'n', 'l', 'a', 'n', 'd'] :=
      fun h => h1 (hm.2 h)
    by_cases h2 : toLowerCase term = "rest"
    · rw [if_neg h1, if_pos h2, if_neg h1', if_pos (hr.1 h2)]
    · have h2' : ¬ term.toList.map Char.toLower = ['r', 'e', 's', 't'] :=
        fun h => h2 (hr.2 h)
      rw [if_neg h1, if_neg h2, if_neg h1', if_neg h2']
      unfold _linkMunicipalities
      simp only [hincludes]
      cases hp : includes.part <;> cases hms : includes.municipalities with
      | none => rfl
      | some ms =>
        cases ms with
        | nil => rfl
        | cons m ms => rfl

/-- C7, amended, on terms written with capitals, `MainLand` and `REST`, and
on another term with two municipalities and no `includes.part`. -/
theorem getProvinceAsBullet_subarea_witness :
    ((⟨"Palawan", some true, some ⟨some "MainLand", none, none⟩⟩ : AffectedArea).part
          = some true
        ∧ (_getProvinceAsBullet ["Palawan"]
            ⟨"Palawan", some true, some ⟨some "MainLand", none, none⟩⟩ "**" none).1
          = .ok "** Mainland [[Palawan]]\n")
      ∧ (_getProvinceAsBullet ["Quezon"]
          ⟨"Quezon", some true, some ⟨some "REST", none, none⟩⟩ "*" none).1
        = .ok "* rest of [[Quezon]]\n"
      ∧ (_getProvinceAsBullet ["Cagayan"]
          ⟨"Cagayan", some true, some ⟨some "Portion", none, some ["Gonzaga", "Lal-lo"]⟩⟩
          "**" none).1
        = .ok ("** undefined Portion of [[Cagayan]] "
            ++ "\x7b\x7bsmall|([[Gonzaga, Cagayan|Gonzaga]], [[Lal-lo, Cagayan|Lal-lo]])\x7d\x7d\n") :=
  ⟨⟨rfl,
      (getProvinceAsBullet_subarea ["Palawan"] _ ⟨some "MainLand", none, none⟩ "MainLand" "**"
        none rfl rfl rfl).trans (by decide)⟩,
    (getProvinceAsBullet_subarea ["Quezon"] _ ⟨some "REST", none, none⟩ "REST" "*" none
      rfl rfl rfl).trans (by decide),
    (getProvinceAsBullet_subarea ["Cagayan"] _
      ⟨some "Portion", none, some ["Gonzaga", "Lal-lo"]⟩ "Portion" "**" none
      rfl rfl rfl).trans (by decide)⟩

/-! ## Lemmas on the rewrites -/

theorem replaceGo_skip (matchLen : List Char → Option Nat) (repl pre R : List Char) :
    replaceGo matchLen repl pre.length (pre ++ R) = replaceGo matchLen repl 0 R := by
  induction pre with
  | nil => rfl
  | cons c rest ih => simpa [replaceGo] using ih

theorem replaceGo_keep (matchLen : List Char → Option Nat) (repl pre R : List Char)
    (h : ∀ c ∈ pre, ∀ rest, matchLen (c :: rest) = none) :
    replaceGo matchLen repl 0 (pre ++ R) = pre ++ replaceGo matchLen repl 0 R := by
  induction pre with
  | nil => rfl
  | cons c rest ih =>
    have hc := h c (List.mem_cons_self c rest) (rest ++ R)
    have ih2 := ih (fun d hd => h d (List.mem_cons_of_mem c hd))
    show replaceGo matchLen repl 0 (c :: (rest ++ R)) = c :: (rest ++ replaceGo matchLen repl 0 R)
    rw [replaceGo, hc, ih2]

theorem replaceGo_match (matchLen : List Char → Option Nat) (repl R : List Char) (c : Char)
    (pre : List Char) (h : matchLen (c :: pre ++ R) = some (pre.length + 1)) :
    replaceGo matchLen repl 0 (c :: pre ++ R) = repl ++ replaceGo matchLen repl 0 R := by
  have h2 : matchLen (c :: (pre ++ R)) = some (pre.length + 1) := h
  show replaceGo matchLen repl 0 (c :: (pre ++ R)) = repl ++ replaceGo matchLen repl 0 R
  rw [replaceGo, h2]
  show repl ++ replaceGo matchLen repl pre.length (pre ++ R) = _
  rw [replaceGo_skip]

theorem matchSta_none (c : Char) (rest : List Char) (h : c ≠ 'S') :
    matchSta (c :: rest) = none := by
  unfold matchSta
  split
  · rename_i heq
    simp only [List.cons.injEq] at heq
    exact absurd heq.1 h
  · rfl

theorem matchSto_none (c : Char) (rest : List Char) (h : c ≠ 'S') :
    matchSto (c :: rest) = none := by
  unfold matchSto
  split
  · rename_i heq
    simp only [List.cons.injEq] at heq
    exact absurd heq.1 h
  · rfl

theorem matchDirectionalAux_none (fuel : Nat) (s : List Char) (h : matchWord s = none) :
    matchDirectionalAux fuel s = none := by
  cases fuel with
  | zero => rfl
  | succ n => simp [matchDirectionalAux, h]

theorem matchDirectional_word (s : List Char) (w : Nat) (c : Char) (rest : List Char)
    (hw : matchWord s = some (w, 'e' :: 'r' :: 'n' :: c :: rest))
    (hc : isWhiteSpace c = true) : matchDirectional s = some (w + 4) := by
  unfold matchDirectional
  simp only [matchDirectionalAux, hw]
  rw [matchDirectionalAux_none _ _ (by rfl)]
  simp [matchErnSpace, hc]

/-- The rewrites drop a leading lowercase directional word and its space and
work on the remainder as they would alone. -/
theorem rewriteMunicipality_directional (word remainder : String)
    (hw : word ∈ ["eastern", "northern", "southern", "western"]) :
    rewriteMunicipality (word ++ " " ++ remainder) = rewriteMunicipality remainder := by
  have hkeepA : ∀ repl pre : List Char, (∀ c ∈ pre, c ≠ 'S') → ∀ R,
      replaceGo matchSta repl 0 (pre ++ R) = pre ++ replaceGo matchSta repl 0 R :=
    fun repl pre hp R =>
      replaceGo_keep _ repl pre R (fun c hc rest => matchSta_none c rest (hp c hc))
  have hkeepO : ∀ repl pre : List Char, (∀ c ∈ pre, c ≠ 'S') → ∀ R,
      replaceGo matchSto repl 0 (pre ++ R) = pre ++ replaceGo matchSto repl 0 R :=
    fun repl pre hp R =>
      replaceGo_keep _ repl pre R (fun c hc rest => matchSto_none c rest (hp c hc))
  unfold rewriteMunicipality
  congr 1
  simp only [String.toList, String.data_append]
  simp only [List.mem_cons, List.mem_singleton, List.not_mem_nil, or_false] at hw
  rcases hw with rfl | rfl | rfl | rfl
  · rw [show "eastern".data ++ " ".data ++ remainder.data
        = ['e', 'a', 's', 't', 'e', 'r', 'n', ' '] ++ remainder.data from rfl,
      hkeepA _ ['e', 'a', 's', 't', 'e', 'r', 'n', ' '] (by decide), hkeepO _ ['e', 'a', 's', 't', 'e', 'r', 'n', ' '] (by decide)]
    exact replaceGo_match matchDirectional [] _ 'e' ['a', 's', 't', 'e', 'r', 'n', ' ']
      (matchDirectional_word _ 4 ' ' _ rfl (by decide))
  · rw [show "northern".data ++ " ".data ++ remainder.data
        = ['n', 'o', 'r', 't', 'h', 'e', 'r', 'n', ' '] ++ remainder.data from rfl,
      hkeepA _ ['n', 'o', 'r', 't', 'h', 'e', 'r', 'n', ' '] (by decide), hkeepO _ ['n', 'o', 'r', 't', 'h', 'e', 'r', 'n', ' '] (by decide)]
    exact replaceGo_match matchDirectional [] _ 'n' ['o', 'r', 't', 'h', 'e', 'r', 'n', ' ']
      (matchDirectional_word _ 5 ' ' _ rfl (by decide))
  · rw [show "southern".data ++ " ".data ++ remainder.data
        = ['s', 'o', 'u', 't', 'h', 'e', 'r', 'n', ' '] ++ remainder.data from rfl,
      hkeepA _ ['s', 'o', 'u', 't', 'h', 'e', 'r', 'n', ' '] (by decide), hkeepO _ ['s', 'o', 'u', 't', 'h', 'e', 'r', 'n', ' '] (by decide)]
    exact replaceGo_match matchDirectional [] _ 's' ['o', 'u', 't', 'h', 'e', 'r', 'n', ' ']
      (matchDirectional_word _ 5 ' ' _ rfl (by decide))
  · rw [show "western".data ++ " ".data ++ remainder.data
        = ['w', 'e', 's', 't', 'e', 'r', 'n', ' '] ++ remainder.data from rfl,
      hkeepA _ ['w', 'e', 's', 't', 'e', 'r', 'n', ' '] (by decide), hkeepO _ ['w', 'e', 's', 't', 'e', 'r', 'n', ' '] (by decide)]
    exact replaceGo_match matchDirectional [] _ 'w' ['e', 's', 't', 'e', 'r', 'n', ' ']
      (matchDirectional_word _ 4 ' ' _ rfl (by decide))

theorem lookup_eq_none (table : List (String × String)) (s : String)
    (h : ∀ kv ∈ table, kv.1 ≠ s) : table.lookup s = none := by
  induction table with
  | nil => rfl
  | cons kv rest ih =>
    obtain ⟨k, v⟩ := kv
    have hk : (s == k) = false := by
      simpa using fun h2 : s = k => h (k, v) (List.mem_cons_self _ _) h2.symm
    simp only [List.lookup, hk]
    exact ih (fun kv2 h2 => h kv2 (List.mem_cons_of_mem _ h2))

/-- A name starting with `e`, `n`, `s` or `w` is no property of the alias
table, own or inherited. -/
theorem getTransumte_undefined (s : String) (c : Char) (rest : List Char)
    (hs : s.data = c :: rest) (hc : c ∈ ['e', 'n', 's', 'w']) :
    getTransumte s = .undefined := by
  have hne : ∀ k : String, k.data.head? ≠ some c → k ≠ s := by
    intro k hk h
    subst h
    rw [hs] at hk
    exact hk rfl
  have h1 : ∀ kv ∈ municipalitiesTransumte, kv.1 ≠ s := by
    intro kv hkv
    apply hne
    revert kv
    simp only [List.mem_cons, List.mem_singleton, List.not_mem_nil, or_false] at hc
    rcases hc with rfl | rfl | rfl | rfl <;> decide
  have h2 : ∀ kv ∈ objectPrototypeMethods, kv.1 ≠ s := by
    intro kv hkv
    apply hne
    revert kv
    simp only [List.mem_cons, List.mem_singleton, List.not_mem_nil, or_false] at hc
    rcases hc with rfl | rfl | rfl | rfl <;> decide
  have h3 : ¬ s = "__proto__" := by
    intro h
    apply hne "__proto__" _ h.symm
    simp only [List.mem_cons, List.mem_singleton, List.not_mem_nil, or_false] at hc
    rcases hc with rfl | rfl | rfl | rfl <;> decide
  unfold getTransumte
  rw [lookup_eq_none _ _ h1, lookup_eq_none _ _ h2]
  simp [h3]

/-! ## Claims on `_linkMunicipalities` -/

/-- C8: the pattern `/Sta./` takes any character after `Sta`, not only a
full stop. `Sta. Ana` gives the target `Santa Ana`, but `Sta Cruz`, `Stanley`
and `Sto Tomas`, none in the alias table and none holding a directional word
or the text `Sta.`/`Sto.`, lose the character after `Sta`/`Sto` as well. -/
theorem linkTarget_wildcard :
    linkTarget "Sta. Ana" = "Santa Ana"
      ∧ getTransumte "Sta Cruz" = .undefined
      ∧ linkTarget "Sta Cruz" = "SantaCruz"
      ∧ linkTarget "Stanley" = "Santaley"
      ∧ linkTarget "Sto Tomas" = "SantoTomas"
      ∧ linkMunicipality "Davao del Sur" "Sta Cruz"
        = "[[SantaCruz, Davao del Sur|Sta Cruz]]" := by
  decide

/-- C9, as stated, fails: the pattern looks for lowercase words, so the
capitalised `Northern Samar` keeps its whole text as link target. -/
theorem linkMunicipality_capitalised_counterexample :
    linkMunicipality "Leyte" "Northern Samar" = "[[Northern Samar, Leyte|Northern Samar]]"
      ∧ linkTarget "Northern Samar" ≠ "Samar" := by
  decide

/-- C9, amended: for a raw name made of a lowercase directional word
(`eastern`, `northern`, `southern`, `western`), a space and a remainder, the
link target is the remainder, put through the same rewrites, and the display
text after the pipe is the unchanged raw name. -/
theorem linkMunicipality_directional (province word remainder : String)
    (hw : word ∈ ["eastern", "northern", "southern", "western"]) :
    linkMunicipality province (word ++ " " ++ remainder) =
      "[[" ++ rewriteMunicipality remainder ++ ", " ++ province ++ "|"
        ++ (word ++ " " ++ remainder) ++ "]]" := by
  have hlook : getTransumte (word ++ " " ++ remainder) = .undefined := by
    simp only [List.mem_cons, List.mem_singleton, List.not_mem_nil, or_false] at hw
    rcases hw with rfl | rfl | rfl | rfl
    · exact getTransumte_undefined _ 'e' ("astern ".data ++ remainder.data)
        (by simp only [String.data_append]; rfl) (by decide)
    · exact getTransumte_undefined _ 'n' ("orthern ".data ++ remainder.data)
        (by simp only [String.data_append]; rfl) (by decide)
    · exact getTransumte_undefined _ 's' ("outhern ".data ++ remainder.data)
        (by simp only [String.data_append]; rfl) (by decide)
    · exact getTransumte_undefined _ 'w' ("estern ".data ++ remainder.data)
        (by simp only [String.data_append]; rfl) (by decide)
  unfold linkMunicipality linkTarget
  rw [hlook, rewriteMunicipality_directional word remainder hw]

/-- C9, amended, on `northern Samar`: the target is `Samar`, the display
text `northern Samar`. -/
theorem linkMunicipality_directional_witness :
    "northern" ∈ ["eastern", "northern", "southern", "western"]
      ∧ linkMunicipality "Leyte" ("northern" ++ " " ++ "Samar")
        = "[[Samar, Leyte|northern Samar]]" :=
  ⟨by decide,
    (linkMunicipality_directional "Leyte" "northern" "Samar" (by decide)).trans (by decide)⟩

/-- C10: the alias table is read with `table[name] !== undefined`, which
also finds the properties an object literal inherits. The five aliases give
their targets (`Albuena` gives `Albuera`), but the raw names `constructor`
and `__proto__`, which are no keys of the table and which no rewrite
changes, get the text of the inherited value as target. -/
theorem linkMunicipality_inherited :
    linkMunicipality "Leyte" "Albuena" = "[[Albuera, Leyte|Albuena]]"
      ∧ municipalitiesTransumte.lookup "constructor" = none
      ∧ rewriteMunicipality "constructor" = "constructor"
      ∧ linkMunicipality "Leyte" "constructor"
        = "[[function Object() \x7b [native code] \x7d, Leyte|constructor]]"
      ∧ linkMunicipality "Leyte" "__proto__" = "[[[object Object], Leyte|__proto__]]" := by
  decide

/-! ## Claims on `_getRegionHeader`, `_generateTemplate` and the run without typhoon -/

/-- C18, as stated, fails on the space the header puts after the bold link:
without a designation the line ends in a space and a newline, and with one
the small text follows that space. -/
theorem getRegionHeader_counterexample :
    _getRegionHeader (some ⟨"Ilocos Region", none, none, []⟩)
        = "* \x27\x27\x27[[Ilocos Region]]\x27\x27\x27 \n"
      ∧ _getRegionHeader (some ⟨"Ilocos Region", none, none, []⟩)
        ≠ "* \x27\x27\x27[[Ilocos Region]]\x27\x27\x27\n"
      ∧ _getRegionHeader (some ⟨"Ilocos Region", none, some "Region I", []⟩)
        ≠ "* \x27\x27\x27[[Ilocos Region]]\x27\x27\x27\x7b\x7bsmall|(Region I)\x7d\x7d\n" := by
  decide

/-- C18, amended: for a region the header is `* '''[[`, the page and `|`
(left out when the region has no page or an empty one), the name, `]]'''` and
a space, then `{{small|(DESIGNATION)}}` and a newline when the region has a
designation and a newline alone otherwise; without a region it is a bare
newline. -/
theorem getRegionHeader_eq (region : Region) :
    _getRegionHeader (some region) =
        "* \x27\x27\x27[["
          ++ (if region.page = none ∨ region.page = some "" then ""
              else region.page.getD "" ++ "|")
          ++ region.name ++ "]]\x27\x27\x27 "
          ++ (if region.designation = none then "\n"
              else "\x7b\x7bsmall|(" ++ region.designation.getD "" ++ ")\x7d\x7d\n")
      ∧ _getRegionHeader none = "\n" := by
  refine ⟨?_, rfl⟩
  unfold _getRegionHeader
  cases hp : region.page with
  | none =>
    cases hd : region.designation <;> simp [hp, hd]
  | some page =>
    by_cases hpe : page = ""
    · cases hd : region.designation <;> simp [hp, hd, hpe]
    · cases hd : region.designation <;> simp [hp, hd, hpe]

set_option maxRecDepth 100000 in
/-- C16: the hours and minutes come from `getHours()` and `getMinutes()`,
which give local time. For the instant 2020-11-01T06:00Z the field reads
`06:00 UTC (14:00 PHT)` on a machine on UTC, but `14:00 UTC (22:00 PHT)` on a
machine eight hours ahead of UTC. -/
theorem generateTemplate_local_time :
    phTime 0 1604210400000 = "06:00 UTC (14:00 [[Philippine Standard Time|PHT]])"
      ∧ phTime 480 1604210400000 = "14:00 UTC (22:00 [[Philippine Standard Time|PHT]])"
      ∧ _generateTemplate 480 1604210400000 ⟨"", "", "", "", ""⟩ =
        "\x7b\x7bTyphoonWarningsTable\n"
          ++ "| PHtime = 14:00 UTC (22:00 [[Philippine Standard Time|PHT]])\n"
          ++ "| PH5 = \n| PH4 = \n| PH3 = \n| PH2 = \n| PH1 = \n"
          ++ "| PHsource = [http://bagong.pagasa.dost.gov.ph/tropical-cyclone/severe-weather-bulletin/2 PAGASA]\n"
          ++ "\x7d\x7d" := by
  decide

/-- C17: when the bulletin worked on, given as an object or parsed from a
string, has `typhoon: null`, the result is the fixed template with the one
message as issues, and the converter is left as it was: no province list is
fetched and the issue log is not touched. -/
theorem getWarningSignalsTemplate_no_typhoon (world : Collaborators) (regions : List Region)
    (self : Converter) (input : BulletinInput) (bulletin : Bulletin)
    (hinput : input = .object bulletin ∨ ∃ json, input = .text json
      ∧ world.jsonParse json = .ok bulletin)
    (hnull : bulletin.typhoon = none) :
    getWarningSignalsTemplate world regions self input =
      (.ok ⟨.messages ["There is no active typhoon bulletin."],
          "\x27\x27No active typhoon warning signals.\x27\x27"⟩, self) := by
  have hres : resolveBulletin world input = .ok bulletin := by
    rcases hinput with h | ⟨json, h, hp⟩
    · subst h
      rfl
    · subst h
      exact hp
  unfold getWarningSignalsTemplate
  rw [hres]
  simp only [hnull]

/-- C17 on a bulletin object with `typhoon: null` and an issue log that
already holds an issue. -/
theorem getWarningSignalsTemplate_no_typhoon_witness :
    ((BulletinInput.object ⟨none, 0, ⟨none, none, none, none, none⟩⟩
          = .object ⟨none, 0, ⟨none, none, none, none, none⟩⟩
        ∨ ∃ json, BulletinInput.object ⟨none, 0, ⟨none, none, none, none, none⟩⟩ = .text json
          ∧ (fun _ => Except.error JSError.syntaxError : String → Except JSError Bulletin) json
            = .ok ⟨none, 0, ⟨none, none, none, none, none⟩⟩)
      ∧ (⟨none, 0, ⟨none, none, none, none, none⟩⟩ : Bulletin).typhoon = none)
      ∧ getWarningSignalsTemplate
          ⟨⟨none, 0, ⟨none, none, none, none, none⟩⟩, fun _ => .error .syntaxError, [], 480⟩
          duplicateRegions ⟨some [.province "Page not found for province: Cebu" "Cebu"], none⟩
          (.object ⟨none, 0, ⟨none, none, none, none, none⟩⟩) =
        (.ok ⟨.messages ["There is no active typhoon bulletin."],
            "\x27\x27No active typhoon warning signals.\x27\x27"⟩,
          ⟨some [.province "Page not found for province: Cebu" "Cebu"], none⟩) :=
  ⟨⟨Or.inl rfl, rfl⟩,
    getWarningSignalsTemplate_no_typhoon _ duplicateRegions _ _
      ⟨none, 0, ⟨none, none, none, none, none⟩⟩ (Or.inl rfl) rfl⟩

/-! ## Claims on the check of `extras` -/

/-- C13: the check compares the array `Object.keys(extras)` itself with
zero. For a list holding one area the keys are `["0"]`, which converts to the
number zero, so no issue is recorded; the area of `extras` is in no bucket. -/
theorem landmassesToRegions_extras_list :
    objectKeys (.array [wholeProvince "Cebu"]) = ["0"]
      ∧ objectKeysGreaterThanZero (.array [wholeProvince "Cebu"]) = false
      ∧ _landmassesToRegions duplicateRegions
          ⟨none, none, none, some (.array [wholeProvince "Cebu"])⟩ none = ([], none) := by
  decide

/-! ## Lemmas on `Object.keys(extras) > 0` -/

theorem mem_dropWhile_of_false (p : Char → Bool) (c : Char) (l : List Char)
    (hp : p c = false) (hc : c ∈ l) : c ∈ l.dropWhile p := by
  induction l with
  | nil => simp at hc
  | cons d rest ih =>
    by_cases hd : p d = true
    · have hne : c ≠ d := by
        intro h
        rw [h, hd] at hp
        cases hp
      rcases List.mem_cons.1 hc with h | h
      · exact absurd h hne
      · simpa [List.dropWhile, hd] using ih h
    · simp only [Bool.not_eq_true] at hd
      simpa [List.dropWhile, hd] using hc

theorem mem_trimWhiteSpace (c : Char) (l : List Char) (hp : isWhiteSpace c = false)
    (hc : c ∈ l) : c ∈ trimWhiteSpace l := by
  unfold trimWhiteSpace
  rw [List.mem_reverse]
  apply mem_dropWhile_of_false _ _ _ hp
  rw [List.mem_reverse]
  exact mem_dropWhile_of_false _ _ _ hp hc

theorem all_eq_false_of_mem (p : Char → Bool) (c : Char) (l : List Char) (hp : p c = false)
    (hc : c ∈ l) : l.all p = false := by
  rw [List.all_eq_false]
  exact ⟨c, hc, by simp [hp]⟩

theorem nonDecimalPositive_comma (t : List Char) (h : ',' ∈ t) :
    nonDecimalPositive t = none := by
  unfold nonDecimalPositive
  split
  · rename_i x ds
    rcases List.mem_cons.1 h with h0 | h1
    · exact absurd h0 (by decide)
    · rcases List.mem_cons.1 h1 with hx | hds
      · subst hx
        simp
      · have h16 := all_eq_false_of_mem
          (fun c => c.isDigit || ('a' ≤ c && c ≤ 'f') || ('A' ≤ c && c ≤ 'F')) ',' ds
          (by decide) hds
        have h8 := all_eq_false_of_mem (fun c => '0' ≤ c && c ≤ '7') ',' ds (by decide) hds
        have h2 := all_eq_false_of_mem (fun c => c = '0' || c = '1') ',' ds (by decide) hds
        simp only [h16, h8, h2, Bool.and_false, Bool.false_eq_true, if_false]
  · rfl

theorem exponentPart_comma (l : List Char) (h : ',' ∈ l) : exponentPart l = none := by
  have hdigit : ∀ ds : List Char, ',' ∈ ds → ds.all Char.isDigit = false :=
    fun ds hds => all_eq_false_of_mem Char.isDigit ',' ds (by decide) hds
  unfold exponentPart
  split
  · simp at h
  · rename_i e rest
    by_cases he : (e = 'e' || e = 'E') = true
    · have hne : ',' ≠ e := by
        intro h2
        subst h2
        revert he
        decide
      have hrest : ',' ∈ rest := by
        rcases List.mem_cons.1 h with h0 | h1
        · exact absurd h0 hne
        · exact h1
      simp only [he, if_true]
      split
      · rename_i ds
        have hds : ',' ∈ ds := by
          rcases List.mem_cons.1 hrest with h0 | h1
          · exact absurd h0 (by decide)
          · exact h1
        simp [hdigit ds hds]
      · rename_i ds
        have hds : ',' ∈ ds := by
          rcases List.mem_cons.1 hrest with h0 | h1
          · exact absurd h0 (by decide)
          · exact h1
        simp [hdigit ds hds]
      · simp [hdigit rest hrest]
    · simp only [he, Bool.false_eq_true, if_false]

theorem mem_dropWhile_isDigit (l : List Char) (h : ',' ∈ l) :
    ',' ∈ (l.span Char.isDigit).2 := by
  rw [List.span_eq_take_drop]
  exact mem_dropWhile_of_false Char.isDigit ',' l (by decide) h

theorem unsignedDecimalPositive_comma (r : List Char) (h : ',' ∈ r) :
    unsignedDecimalPositive r = false := by
  have hinf : r ≠ "Infinity".toList := by
    intro h2
    rw [h2] at h
    revert h
    decide
  have h1 := mem_dropWhile_isDigit r h
  have h2 : ',' ∈ (match (r.span Char.isDigit).2 with
      | '.' :: r2 => r2.span Char.isDigit
      | r2 => ([], r2) : List Char × List Char).2 := by
    split
    · rename_i r2 heq
      rw [heq] at h1
      rcases List.mem_cons.1 h1 with h0 | h3
      · exact absurd h0 (by decide)
      · exact mem_dropWhile_isDigit r2 h3
    · exact h1
  have h3 := exponentPart_comma _ h2
  unfold unsignedDecimalPositive
  simp only [hinf, if_false]
  split
  · rfl
  · simp only [h3]

theorem stringToNumberPositive_comma (s : String) (h : ',' ∈ s.toList) :
    stringToNumberPositive s = false := by
  have ht := mem_trimWhiteSpace ',' s.toList (by decide) h
  unfold stringToNumberPositive
  simp only [nonDecimalPositive_comma _ ht]
  split
  · rfl
  · rename_i r heq
    rw [heq] at ht
    rcases List.mem_cons.1 ht with h0 | h1
    · exact absurd h0 (by decide)
    · exact unsignedDecimalPositive_comma r h1
  · exact unsignedDecimalPositive_comma _ ht

theorem mem_intercalate_go (c : Char) (sep : String) (l : List String) (acc : String)
    (h : c ∈ acc.toList) : c ∈ (String.intercalate.go acc sep l).toList := by
  induction l generalizing acc with
  | nil => exact h
  | cons a rest ih =>
    apply ih
    simp only [String.toList, String.data_append, List.mem_append]
    exact Or.inl (Or.inl h)

theorem comma_mem_intercalate (a b : String) (rest : List String) :
    ',' ∈ (",".intercalate (a :: b :: rest)).toList := by
  show ',' ∈ (String.intercalate.go (a ++ "," ++ b) "," rest).toList
  apply mem_intercalate_go
  simp only [String.toList, String.data_append, List.mem_append]
  exact Or.inl (Or.inr (List.mem_singleton.2 rfl))

theorem objectKeysGreaterThanZero_array (items : List AffectedArea) :
    objectKeysGreaterThanZero (.array items) = false := by
  unfold objectKeysGreaterThanZero objectKeys
  match items with
  | [] => decide
  | [_] =>
    show stringToNumberPositive (",".intercalate ["0"]) = false
    decide
  | _ :: _ :: rest =>
    apply stringToNumberPositive_comma
    simp only [List.length_cons, List.range_succ_eq_map, List.map_cons]
    exact comma_mem_intercalate _ _ _

theorem objectKeysGreaterThanZero_object (entries : List (String × List AffectedArea)) :
    objectKeysGreaterThanZero (.object entries) =
      match entries with
      | [(key, _)] => stringToNumberPositive key
      | _ => false := by
  unfold objectKeysGreaterThanZero objectKeys
  match entries with
  | [] => decide
  | [(key, _)] => rfl
  | _ :: _ :: rest =>
    apply stringToNumberPositive_comma
    exact comma_mem_intercalate _ _ _

/-- The check fires exactly for an object with one key that converts to a
number above zero. -/
theorem checkExtras_entries (landmasses : Landmasses) (issues : IssueLog) :
    IssueLog.entries (checkExtras landmasses issues) =
      IssueLog.entries issues
        ++ (match landmasses.extras with
            | some (.object [(key, value)]) =>
              if stringToNumberPositive key = true then
                [Issue.extras "Extras detected." (.object [(key, value)])]
              else []
            | _ => []) := by
  unfold checkExtras
  match h : landmasses.extras with
  | none => simp
  | some (.array items) => simp [objectKeysGreaterThanZero_array]
  | some (.object []) => simp [objectKeysGreaterThanZero_object]
  | some (.object [(key, value)]) =>
    simp only [objectKeysGreaterThanZero_object]
    by_cases hk : stringToNumberPositive key = true
    · simp [hk, _issue, IssueLog.entries]
    · simp [hk]
  | some (.object (_ :: _ :: rest)) => simp [objectKeysGreaterThanZero_object]

/-! ## Claims on the check of `extras`, continued -/

/-- C20, as stated, fails: for the object `{"1": []}` the keys `["1"]`
convert to the number one, the comparison holds and the issue is recorded. -/
theorem landmassesToRegions_extras_counterexample :
    objectKeysGreaterThanZero (.object [("1", [])]) = true
      ∧ _landmassesToRegions duplicateRegions
          ⟨none, none, none, some (.object [("1", [])])⟩ none
        = ([], some [Issue.extras "Extras detected." (.object [("1", [])])]) := by
  decide

/-- C20, amended: `_landmassesToRegions` records the `Extras detected.` issue
in one case only, an `extras` object with exactly one key whose text converts
to a number above zero; for a missing `extras`, a list of areas, empty or
not, an empty object or an object with several keys, nothing is recorded.
Apart from that issue the log grows by the region issues alone. -/
theorem landmassesToRegions_extras (regions : List Region) (landmasses : Landmasses)
    (issues : IssueLog) :
    IssueLog.entries (_landmassesToRegions regions landmasses issues).2 =
      IssueLog.entries issues
        ++ (match landmasses.extras with
            | some (.object [(key, value)]) =>
              if stringToNumberPositive key = true then
                [Issue.extras "Extras detected." (.object [(key, value)])]
              else []
            | _ => [])
        ++ (mixed landmasses).filterMap (regionIssue regions) := by
  unfold _landmassesToRegions
  rw [foldl_classify_snd, checkExtras_entries]

/-! ## Lemmas on a directional word inside a name -/

theorem matchWord_none (c : Char) (rest : List Char)
    (h : c ∉ ['e', 'n', 's', 'w']) : matchWord (c :: rest) = none := by
  simp only [List.mem_cons, List.mem_singleton, List.not_mem_nil, or_false, not_or] at h
  unfold matchWord
  split
  · rename_i heq
    simp only [List.cons.injEq] at heq
    exact absurd heq.1 h.1
  · rename_i heq
    simp only [List.cons.injEq] at heq
    exact absurd heq.1 h.2.1
  · rename_i heq
    simp only [List.cons.injEq] at heq
    exact absurd heq.1 h.2.2.1
  · rename_i heq
    simp only [List.cons.injEq] at heq
    exact absurd heq.1 h.2.2.2
  · rfl

theorem matchDirectional_none (c : Char) (rest : List Char)
    (h : c ∉ ['e', 'n', 's', 'w']) : matchDirectional (c :: rest) = none :=
  matchDirectionalAux_none _ _ (matchWord_none c rest h)

/-- The three rewrites on the characters of a name. -/
theorem rewriteMunicipality_toList (s : String) :
    (rewriteMunicipality s).toList =
      replaceGo matchDirectional [] 0
        (replaceGo matchSto "Santo".toList 0
          (replaceGo matchSta "Santa".toList 0 s.toList)) := rfl

/-- A lowercase directional word and its space are dropped also after a
prefix in which no pattern can start, and the remainder is rewritten as it
would be alone. -/
theorem rewriteMunicipality_inner (pre word remainder : String)
    (hw : word ∈ ["eastern", "northern", "southern", "western"])
    (hpre : ∀ c ∈ pre.toList, c ∉ ['S', 'e', 'n', 's', 'w']) :
    rewriteMunicipality (pre ++ (word ++ " " ++ remainder)) =
      pre ++ rewriteMunicipality remainder := by
  have hS : ∀ c ∈ pre.toList, c ≠ 'S' := by
    intro c hc h
    exact hpre c hc (by simp [h])
  have hD : ∀ c ∈ pre.toList, c ∉ ['e', 'n', 's', 'w'] := by
    intro c hc h
    exact hpre c hc (List.mem_cons_of_mem _ h)
  have hinner := congrArg String.toList (rewriteMunicipality_directional word remainder hw)
  rw [rewriteMunicipality_toList, rewriteMunicipality_toList] at hinner
  apply String.ext
  show (rewriteMunicipality (pre ++ (word ++ " " ++ remainder))).toList
    = (pre ++ rewriteMunicipality remainder).toList
  rw [rewriteMunicipality_toList]
  have hsplit : (pre ++ (word ++ " " ++ remainder)).toList
      = pre.toList ++ (word ++ " " ++ remainder).toList := by
    simp [String.toList]
  rw [hsplit,
    replaceGo_keep matchSta _ pre.toList _ (fun c hc rest => matchSta_none c rest (hS c hc)),
    replaceGo_keep matchSto _ pre.toList _ (fun c hc rest => matchSto_none c rest (hS c hc)),
    replaceGo_keep matchDirectional _ pre.toList _
      (fun c hc rest => matchDirectional_none c rest (hD c hc)),
    hinner]
  simp [String.toList, rewriteMunicipality]

/-! ## Claims on the directional rewrite -/

/-- C19, as stated, fails: the pattern is global and not anchored, so a
directional word after the first position is dropped too, and a name that
starts with one loses every further one as well. -/
theorem linkTarget_inner_counterexample :
    getTransumte "Brgy. northern Luna" = .undefined
      ∧ linkTarget "Brgy. northern Luna" = "Brgy. Luna"
      ∧ linkTarget "Brgy. northern Luna" ≠ "Brgy. northern Luna"
      ∧ linkTarget "northern eastern Samar" = "Samar"
      ∧ linkTarget "northern eastern Samar" ≠ "eastern Samar" := by
  decide

/-- C19, amended: the rewrite drops a lowercase directional word and its
space wherever the scan meets it. For a raw name outside the alias table made
of a prefix holding none of the characters `S`, `e`, `n`, `s`, `w` (the empty
prefix included), a directional word, a space and a remainder, the link
target is the prefix followed by the remainder, rewritten in turn. -/
theorem linkTarget_inner (pre word remainder : String)
    (hw : word ∈ ["eastern", "northern", "southern", "western"])
    (hpre : ∀ c ∈ pre.toList, c ∉ ['S', 'e', 'n', 's', 'w'])
    (htable : getTransumte (pre ++ (word ++ " " ++ remainder)) = .undefined) :
    linkTarget (pre ++ (word ++ " " ++ remainder)) = pre ++ rewriteMunicipality remainder := by
  unfold linkTarget
  rw [htable, rewriteMunicipality_inner pre word remainder hw hpre]

/-- C19, amended, on `Brgy. northern Luna` and on the leading word of
`northern Samar`. -/
theorem linkTarget_inner_witness :
    ("northern" ∈ ["eastern", "northern", "southern", "western"]
        ∧ (∀ c ∈ "Brgy. ".toList, c ∉ ['S', 'e', 'n', 's', 'w'])
        ∧ getTransumte ("Brgy. " ++ ("northern" ++ " " ++ "Luna")) = .undefined
        ∧ linkTarget ("Brgy. " ++ ("northern" ++ " " ++ "Luna")) = "Brgy. Luna")
      ∧ linkTarget ("" ++ ("northern" ++ " " ++ "Samar")) = "Samar" :=
  ⟨⟨by decide, by decide, by decide,
      (linkTarget_inner "Brgy. " "northern" "Luna" (by decide) (by decide) (by decide)).trans
        (by decide)⟩,
    (linkTarget_inner "" "northern" "Samar" (by decide) (by decide) (by decide)).trans
      (by decide)⟩

/-! ## Lemmas on rendering -/

theorem andThen_ok {α β : Type} (a : α) (log : IssueLog)
    (f : α → IssueLog → Except JSError β × IssueLog) :
    andThen (.ok a, log) f = f a log := rfl

theorem andThen_of_ok {α β : Type} (x : Except JSError α × IssueLog) (a : α)
    (f : α → IssueLog → Except JSError β × IssueLog) (h : x.1 = .ok a) :
    andThen x f = f a x.2 := by
  unfold andThen
  rw [h]

theorem firstRegionFrom_lt (province : String) (regions : List Region) (index j : Nat)
    (h : firstRegionFrom province regions index = some j) : j < index + regions.length := by
  induction regions generalizing index with
  | nil => simp [firstRegionFrom] at h
  | cons r rest ih =>
    by_cases hc : r.provinces.contains province = true
    · simp only [firstRegionFrom, hc, if_true, Option.some.injEq] at h
      simp only [List.length_cons]
      omega
    · simp only [firstRegionFrom, hc, if_false] at h
      have := ih (index + 1) h
      simp only [List.length_cons]
      omega

theorem bucketOf_region_lt (regions : List Region) (landmasses : Landmasses) (i : Nat)
    (h : bucketOf regions landmasses (.region i) ≠ []) : i < regions.length := by
  obtain ⟨e, he⟩ := List.exists_mem_of_ne_nil _ h
  have hk := (List.mem_filter.1 he).2
  simp only [decide_eq_true_eq] at hk
  unfold assignedBucket at hk
  cases hf : firstRegionFrom e.province regions 0 with
  | none => simp [hf] at hk
  | some j =>
    simp only [hf, BucketKey.region.injEq] at hk
    have := firstRegionFrom_lt e.province regions 0 j hf
    omega

theorem getBucket_eq_none_iff (byRegion : ClassifiedAreas) (k : BucketKey) :
    getBucket byRegion k = none ↔ k ∉ byRegion.map Prod.fst := by
  induction byRegion with
  | nil => simp [getBucket]
  | cons head rest ih =>
    obtain ⟨k0, b0⟩ := head
    by_cases h0 : k0 = k
    · simp [getBucket, h0]
    · have h1 : ¬ k = k0 := fun h => h0 h.symm
      simp [getBucket, h0, h1, ih]

theorem landmasses_getBucket_getD (regions : List Region) (landmasses : Landmasses)
    (log : IssueLog) (k : BucketKey) :
    (getBucket (_landmassesToRegions regions landmasses log).1 k).getD []
      = bucketOf regions landmasses k := by
  rw [landmasses_getBucket]
  unfold bucketOf
  by_cases hf : (mixed landmasses).filter (fun e => assignedBucket regions e = k) = []
  · simp only [hf, if_true, Option.getD_none]
  · simp only [hf, if_false, Option.getD_some]

theorem mem_regionKeys (byRegion : ClassifiedAreas) (i : Nat) :
    i ∈ regionKeys byRegion ↔ BucketKey.region i ∈ byRegion.map Prod.fst := by
  unfold regionKeys
  rw [List.mem_insertionSort, List.mem_filterMap]
  constructor
  · rintro ⟨k, hk, hi⟩
    cases k with
    | region j =>
      simp only [regionIndex, Option.some.injEq] at hi
      subst hi
      exact hk
    | unclassified => simp [regionIndex] at hi
  · intro h
    exact ⟨.region i, h, rfl⟩

/-- The numeric keys of a classified signal in the order of `Object.entries`:
the indices of the regions that received an entry, ascending. -/
theorem regionKeys_classified (regions : List Region) (landmasses : Landmasses)
    (log : IssueLog) :
    regionKeys (_landmassesToRegions regions landmasses log).1 =
      (List.range regions.length).filter
        (fun i => bucketOf regions landmasses (.region i) ≠ []) := by
  have hnodup := landmasses_nodup regions landmasses log
  have hmem : ∀ i, i ∈ regionKeys (_landmassesToRegions regions landmasses log).1 ↔
      i ∈ (List.range regions.length).filter
        (fun i => bucketOf regions landmasses (.region i) ≠ []) := by
    intro i
    rw [mem_regionKeys, List.mem_filter, List.mem_range]
    have hnone := getBucket_eq_none_iff (_landmassesToRegions regions landmasses log).1
      (.region i)
    rw [landmasses_getBucket] at hnone
    constructor
    · intro h
      have hne : bucketOf regions landmasses (.region i) ≠ [] := by
        intro hnil
        unfold bucketOf at hnil
        simp only [hnil, if_true, true_iff] at hnone
        exact hnone h
      exact ⟨bucketOf_region_lt regions landmasses i hne, by simpa using hne⟩
    · rintro ⟨_, hne⟩
      have hne2 : bucketOf regions landmasses (.region i) ≠ [] := by simpa using hne
      unfold bucketOf at hne2
      by_contra hnot
      simp only [hne2, if_false] at hnone
      have hsome := hnone.2 hnot
      cases hsome
  have hn1 : (regionKeys (_landmassesToRegions regions landmasses log).1).Nodup := by
    unfold regionKeys
    rw [(List.perm_insertionSort _ _).nodup_iff]
    refine List.Nodup.filterMap ?_ hnodup
    intro a a' b hb hb'
    cases a <;> cases a' <;> simp_all [regionIndex]
  have hn2 : ((List.range regions.length).filter
      (fun i => bucketOf regions landmasses (.region i) ≠ [])).Nodup :=
    (List.nodup_range _).filter _
  have hperm := (List.perm_ext_iff_of_nodup hn1 hn2).2 hmem
  haveI : IsAntisymm ℕ (fun x1 x2 => x1 ≤ x2) := ⟨fun _ _ h1 h2 => Nat.le_antisymm h1 h2⟩
  refine List.eq_of_perm_of_sorted (r := fun x1 x2 => x1 ≤ x2) hperm ?_ ?_
  · exact List.sorted_insertionSort _ _
  · exact List.Pairwise.filter _ (List.pairwise_le_range _)

/-- The text of a classified signal: a newline, then the buckets in the
order of `renderingOrder`. -/
theorem signalWikitext_classified (provinces : List String) (regions : List Region)
    (landmasses : Landmasses) (log issues : IssueLog) :
    signalWikitext provinces regions (some (_landmassesToRegions regions landmasses log).1)
        issues =
      (renderingOrder regions landmasses).foldl (appendRegion provinces) (.ok "\n", issues) := by
  unfold signalWikitext renderingOrder
  simp only [regionKeys_classified, landmasses_getBucket_getD, List.foldl_append,
    List.foldl_map]
  congr 1
  rw [landmasses_getBucket]
  unfold bucketOf
  by_cases hf : (mixed landmasses).filter
      (fun e => assignedBucket regions e = BucketKey.unclassified) = []
  · simp [hf]
  · simp [hf]

theorem getProvinceAsBullet_ok (provinces : List String) (v : AffectedArea)
    (bulletString : String) (log : IssueLog) (h : WellFormedArea v) :
    ∃ line, (_getProvinceAsBullet provinces v bulletString log).1 = .ok line := by
  unfold _getProvinceAsBullet
  by_cases hp : v.part = some true
  · have hw := h hp
    cases hi : v.includes with
    | none => simp [hi] at hw
    | some includes =>
      cases ht : includes.term with
      | none => simp [hi, ht] at hw
      | some term =>
        simp only [hp, Option.getD_some, Bool.not_true, Bool.false_eq_true, if_false]
        by_cases h1 : toLowerCase term = "mainland"
        · simp only [ht, h1, if_true]
          exact ⟨_, rfl⟩
        · by_cases h2 : toLowerCase term = "rest"
          · simp only [ht, h1, h2, if_true, if_false]
            exact ⟨_, rfl⟩
          · have hl : ∃ m, _linkMunicipalities v = .ok m := by
              unfold _linkMunicipalities
              simp only [hi]
              split <;> exact ⟨_, rfl⟩
            obtain ⟨m, hm⟩ := hl
            simp only [ht, h1, h2, if_false, hm]
            exact ⟨_, rfl⟩
  · have hf : (!(v.part.getD false)) = true := by
      cases hv : v.part with
      | none => rfl
      | some b =>
        cases b with
        | false => rfl
        | true => exact absurd hv hp
    simp only [hf, if_true]
    exact ⟨_, rfl⟩

theorem foldl_appendBullet_ok (provinces : List String) (bulletString : String)
    (areas : List AffectedArea) (out : Except JSError String × IssueLog) (text : String)
    (hout : out.1 = .ok text) (h : ∀ v ∈ areas, WellFormedArea v) :
    ∃ t, (areas.foldl (appendBullet provinces bulletString) out).1 = .ok t := by
  induction areas generalizing out text with
  | nil => exact ⟨text, hout⟩
  | cons v rest ih =>
    obtain ⟨line, hline⟩ := getProvinceAsBullet_ok provinces v bulletString out.2
      (h v (List.mem_cons_self _ _))
    rw [List.foldl_cons]
    refine ih _ (text ++ line) ?_ (fun w hw => h w (List.mem_cons_of_mem _ hw))
    unfold appendBullet
    rw [andThen_of_ok out text _ hout, andThen_of_ok _ line _ hline]

theorem foldl_appendRegion_ok (provinces : List String)
    (parts : List (Option Region × List AffectedArea))
    (out : Except JSError String × IssueLog) (text : String)
    (hout : out.1 = .ok text) (h : ∀ part ∈ parts, ∀ v ∈ part.2, WellFormedArea v) :
    ∃ t, (parts.foldl (appendRegion provinces) out).1 = .ok t := by
  induction parts generalizing out text with
  | nil => exact ⟨text, hout⟩
  | cons part rest ih =>
    obtain ⟨t, ht⟩ := foldl_appendBullet_ok provinces (if part.1.isSome then "**" else "*")
      part.2 (.ok (_getRegionHeader part.1), out.2) _ rfl (h part (List.mem_cons_self _ _))
    rw [List.foldl_cons]
    refine ih _ (text ++ t) ?_ (fun p hp => h p (List.mem_cons_of_mem _ hp))
    unfold appendRegion
    rw [andThen_of_ok out text _ hout]
    exact (congrArg Prod.fst (andThen_of_ok _ t _ ht)).trans rfl

theorem mem_renderingOrder (regions : List Region) (landmasses : Landmasses)
    (part : Option Region × List AffectedArea) (h : part ∈ renderingOrder regions landmasses) :
    ∀ v ∈ part.2, v ∈ mixed landmasses := by
  have hsub : ∀ k, ∀ v ∈ bucketOf regions landmasses k, v ∈ mixed landmasses :=
    fun k v hv => (List.mem_filter.1 hv).1
  unfold renderingOrder at h
  rcases List.mem_append.1 h with h1 | h2
  · by_cases he : bucketOf regions landmasses .unclassified = []
    · simp [he] at h1
    · simp only [he, if_false, List.mem_singleton] at h1
      subst h1
      exact hsub _
  · obtain ⟨i, _, hi⟩ := List.mem_map.1 h2
    subst hi
    exact hsub _

theorem signalWikitext_ok (provinces : List String) (regions : List Region)
    (signal : Option Landmasses) (log issues : IssueLog)
    (h : ∀ v ∈ (signal.map mixed).getD [], WellFormedArea v) :
    ∃ t, (signalWikitext provinces regions (reorganizeSignal regions signal log).1 issues).1
      = .ok t := by
  cases signal with
  | none => exact ⟨"", rfl⟩
  | some landmasses =>
    show ∃ t, (signalWikitext provinces regions
      (some (_landmassesToRegions regions landmasses log).1) issues).1 = .ok t
    rw [signalWikitext_classified]
    refine foldl_appendRegion_ok provinces _ _ "\n" rfl ?_
    intro part hpart v hv
    exact h v (mem_renderingOrder regions landmasses part hpart v hv)

theorem toWikitext_ok (provinces : List String) (regions : List Region)
    (signals : Levels (Option Landmasses)) (issues : IssueLog)
    (h : ∀ v ∈ allAreas signals, WellFormedArea v) :
    ∃ texts, (_toWikitext provinces regions (_reorganizeSignals regions signals issues).1
        (_reorganizeSignals regions signals issues).2).1 = .ok texts := by
  have h1 : ∀ v ∈ (signals.signal1.map mixed).getD [], WellFormedArea v :=
    fun v hv => h v (by simp [allAreas, hv])
  have h2 : ∀ v ∈ (signals.signal2.map mixed).getD [], WellFormedArea v :=
    fun v hv => h v (by simp [allAreas, hv])
  have h3 : ∀ v ∈ (signals.signal3.map mixed).getD [], WellFormedArea v :=
    fun v hv => h v (by simp [allAreas, hv])
  have h4 : ∀ v ∈ (signals.signal4.map mixed).getD [], WellFormedArea v :=
    fun v hv => h v (by simp [allAreas, hv])
  have h5 : ∀ v ∈ (signals.signal5.map mixed).getD [], WellFormedArea v :=
    fun v hv => h v (by simp [allAreas, hv])
  unfold _toWikitext _reorganizeSignals
  simp only []
  obtain ⟨t1, e1⟩ := signalWikitext_ok provinces regions signals.signal1 issues
    (reorganizeSignal regions signals.signal5 (reorganizeSignal regions signals.signal4
      (reorganizeSignal regions signals.signal3 (reorganizeSignal regions signals.signal2
        (reorganizeSignal regions signals.signal1 issues).2).2).2).2).2 h1
  rw [andThen_of_ok _ t1 _ e1]
  obtain ⟨t2, e2⟩ := signalWikitext_ok provinces regions signals.signal2
    (reorganizeSignal regions signals.signal1 issues).2
    (signalWikitext provinces regions (reorganizeSignal regions signals.signal1 issues).1
      (reorganizeSignal regions signals.signal5 (reorganizeSignal regions signals.signal4
        (reorganizeSignal regions signals.signal3 (reorganizeSignal regions signals.signal2
          (reorganizeSignal regions signals.signal1 issues).2).2).2).2).2).2 h2
  rw [andThen_of_ok _ t2 _ e2]
  obtain ⟨t3, e3⟩ := signalWikitext_ok provinces regions signals.signal3 _ _ h3
  rw [andThen_of_ok _ t3 _ e3]
  obtain ⟨t4, e4⟩ := signalWikitext_ok provinces regions signals.signal4 _ _ h4
  rw [andThen_of_ok _ t4 _ e4]
  obtain ⟨t5, e5⟩ := signalWikitext_ok provinces regions signals.signal5 _ _ h5
  rw [andThen_of_ok _ t5 _ e5]
  exact ⟨_, rfl⟩

/-! ## Lemmas on the issue log across steps -/

theorem LogUniform.pure {α : Type} (a : α) : LogUniform (fun log => (a, log)) := by
  intro log
  simp [IssueLog.entries]

theorem LogUniform.seq {α β : Type} (g : IssueLog → α × IssueLog)
    (h : α → IssueLog → β × IssueLog) (hg : LogUniform g) (hh : ∀ a, LogUniform (h a)) :
    LogUniform (fun log => h (g log).1 (g log).2) := by
  intro log
  obtain ⟨g1, g2⟩ := hg log
  obtain ⟨a1, a2⟩ := hh (g none).1 (g log).2
  obtain ⟨b1, b2⟩ := hh (g none).1 (g none).2
  simp only [g1]
  refine ⟨a1.trans b1.symm, ?_⟩
  rw [a2, b2, g2, List.append_assoc]

theorem LogUniform.andThen {α β : Type} (x : IssueLog → Except JSError α × IssueLog)
    (f : α → IssueLog → Except JSError β × IssueLog) (hx : LogUniform x)
    (hf : ∀ a, LogUniform (f a)) : LogUniform (fun log => andThen (x log) f) := by
  have h := LogUniform.seq x
    (fun r log => match r with
      | .ok a => f a log
      | .error e => (.error e, log)) hx
    (fun r => by
      cases r with
      | ok a => exact hf a
      | error e => exact LogUniform.pure _)
  intro log
  have hl := h log
  unfold PagasaToWikipedia.andThen
  exact hl

theorem findProvincePage_fst (provinces : List String) (v : AffectedArea) (log : IssueLog) :
    (findProvincePage provinces v log).1 = (findProvincePage provinces v none).1 := by
  unfold findProvincePage
  split
  · split <;> rfl
  · rfl

theorem findProvincePage_snd (provinces : List String) (v : AffectedArea) (log : IssueLog) :
    IssueLog.entries (findProvincePage provinces v log).2 =
      IssueLog.entries log ++ IssueLog.entries (findProvincePage provinces v none).2 := by
  unfold findProvincePage
  split
  · split
    · simp [IssueLog.entries, _issue]
    · simp [IssueLog.entries]
  · simp [IssueLog.entries]

theorem getProvinceAsBullet_snd (provinces : List String) (v : AffectedArea)
    (bulletString : String) (log : IssueLog) :
    (_getProvinceAsBullet provinces v bulletString log).2
      = (findProvincePage provinces v log).2 := by
  unfold _getProvinceAsBullet
  split
  · rfl
  · split
    · rfl
    · split
      · rfl
      · split
        · rfl
        · split
          · rfl
          · split <;> rfl

theorem getProvinceAsBullet_fst (provinces : List String) (v : AffectedArea)
    (bulletString : String) (log : IssueLog) :
    (_getProvinceAsBullet provinces v bulletString log).1
      = (_getProvinceAsBullet provinces v bulletString none).1 := by
  unfold _getProvinceAsBullet
  simp only [findProvincePage_fst provinces v log]
  split
  · rfl
  · split
    · rfl
    · split
      · rfl
      · split
        · rfl
        · split
          · rfl
          · split <;> rfl

theorem getProvinceAsBullet_uniform (provinces : List String) (v : AffectedArea)
    (bulletString : String) : LogUniform (_getProvinceAsBullet provinces v bulletString) := by
  intro log
  refine ⟨getProvinceAsBullet_fst provinces v bulletString log, ?_⟩
  rw [getProvinceAsBullet_snd, getProvinceAsBullet_snd, findProvincePage_snd]

theorem appendBullet_uniform (provinces : List String) (bulletString : String)
    (v : AffectedArea) (start : IssueLog → Except JSError String × IssueLog)
    (hs : LogUniform start) :
    LogUniform (fun log => appendBullet provinces bulletString (start log) v) :=
  LogUniform.andThen start _ hs (fun _ =>
    LogUniform.andThen _ _ (getProvinceAsBullet_uniform provinces v bulletString)
      (fun _ => LogUniform.pure _))

theorem foldl_appendBullet_uniform (provinces : List String) (bulletString : String)
    (areas : List AffectedArea) (start : IssueLog → Except JSError String × IssueLog)
    (hs : LogUniform start) :
    LogUniform (fun log => areas.foldl (appendBullet provinces bulletString) (start log)) := by
  induction areas generalizing start with
  | nil => exact hs
  | cons v rest ih =>
    exact ih _ (appendBullet_uniform provinces bulletString v start hs)

theorem getRegionsWikitext_uniform (provinces : List String) (region : Option Region)
    (areas : List AffectedArea) : LogUniform (_getRegionsWikitext provinces region areas) :=
  foldl_appendBullet_uniform provinces _ areas _ (LogUniform.pure _)

theorem appendRegion_uniform (provinces : List String)
    (part : Option Region × List AffectedArea)
    (start : IssueLog → Except JSError String × IssueLog) (hs : LogUniform start) :
    LogUniform (fun log => appendRegion provinces (start log) part) :=
  LogUniform.andThen start _ hs (fun _ =>
    LogUniform.andThen _ _ (getRegionsWikitext_uniform provinces part.1 part.2)
      (fun _ => LogUniform.pure _))

theorem foldl_appendRegion_uniform (provinces : List String)
    (parts : List (Option Region × List AffectedArea))
    (start : IssueLog → Except JSError String × IssueLog) (hs : LogUniform start) :
    LogUniform (fun log => parts.foldl (appendRegion provinces) (start log)) := by
  induction parts generalizing start with
  | nil => exact hs
  | cons part rest ih => exact ih _ (appendRegion_uniform provinces part start hs)

theorem signalWikitext_uniform (provinces : List String) (regions : List Region)
    (tcwsRegions : Option ClassifiedAreas) :
    LogUniform (signalWikitext provinces regions tcwsRegions) := by
  cases tcwsRegions with
  | none => exact LogUniform.pure _
  | some byRegion =>
    have hstart : LogUniform (fun log =>
        (match getBucket byRegion .unclassified with
          | some areas => appendRegion provinces (.ok "\n", log) (none, areas)
          | none => (.ok "\n", log) : Except JSError String × IssueLog)) := by
      cases getBucket byRegion .unclassified with
      | none => exact LogUniform.pure _
      | some areas => exact appendRegion_uniform provinces _ _ (LogUniform.pure _)
    have h := foldl_appendRegion_uniform provinces
      ((regionKeys byRegion).map
        (fun i => (regions[i]?, (getBucket byRegion (.region i)).getD []))) _ hstart
    intro log
    have hl := h log
    simp only [List.foldl_map] at hl
    exact hl

theorem toWikitext_uniform (provinces : List String) (regions : List Region)
    (parsedTCWS : Levels (Option ClassifiedAreas)) :
    LogUniform (_toWikitext provinces regions parsedTCWS) := by
  unfold _toWikitext
  refine LogUniform.andThen _ _ (signalWikitext_uniform _ _ _) (fun t1 => ?_)
  refine LogUniform.andThen _ _ (signalWikitext_uniform _ _ _) (fun t2 => ?_)
  refine LogUniform.andThen _ _ (signalWikitext_uniform _ _ _) (fun t3 => ?_)
  refine LogUniform.andThen _ _ (signalWikitext_uniform _ _ _) (fun t4 => ?_)
  refine LogUniform.andThen _ _ (signalWikitext_uniform _ _ _) (fun t5 => ?_)
  exact LogUniform.pure _

theorem landmassesToRegions_uniform (regions : List Region) (landmasses : Landmasses) :
    LogUniform (_landmassesToRegions regions landmasses) := by
  intro log
  constructor
  · rw [landmasses_fst, landmasses_fst]
  · unfold _landmassesToRegions
    rw [foldl_classify_snd, foldl_classify_snd, checkExtras_entries, checkExtras_entries]
    simp [IssueLog.entries]

theorem reorganizeSignal_uniform (regions : List Region) (signal : Option Landmasses) :
    LogUniform (reorganizeSignal regions signal) := by
  cases signal with
  | none => exact LogUniform.pure _
  | some landmasses =>
    intro log
    obtain ⟨h1, h2⟩ := landmassesToRegions_uniform regions landmasses log
    exact ⟨congrArg some h1, h2⟩

theorem reorganizeSignals_uniform (regions : List Region)
    (signals : Levels (Option Landmasses)) :
    LogUniform (_reorganizeSignals regions signals) := by
  have h5 : ∀ a1 a2 a3 a4, LogUniform (fun log =>
      ((⟨a1, a2, a3, a4, (reorganizeSignal regions signals.signal5 log).1⟩ :
          Levels (Option ClassifiedAreas)),
        (reorganizeSignal regions signals.signal5 log).2)) :=
    fun a1 a2 a3 a4 => LogUniform.seq _
      (fun a5 log => ((⟨a1, a2, a3, a4, a5⟩ : Levels (Option ClassifiedAreas)), log))
      (reorganizeSignal_uniform regions signals.signal5) (fun _ => LogUniform.pure _)
  have h4 := fun a1 a2 a3 => LogUniform.seq _
    (fun a4 log =>
      ((⟨a1, a2, a3, a4, (reorganizeSignal regions signals.signal5 log).1⟩ :
          Levels (Option ClassifiedAreas)),
        (reorganizeSignal regions signals.signal5 log).2))
    (reorganizeSignal_uniform regions signals.signal4) (fun a4 => h5 a1 a2 a3 a4)
  have h3 := fun a1 a2 => LogUniform.seq _ _
    (reorganizeSignal_uniform regions signals.signal3) (fun a3 => h4 a1 a2 a3)
  have h2 := fun a1 => LogUniform.seq _ _
    (reorganizeSignal_uniform regions signals.signal2) (fun a2 => h3 a1 a2)
  have h1 := LogUniform.seq _ _
    (reorganizeSignal_uniform regions signals.signal1) (fun a1 => h2 a1)
  intro log
  exact h1 log

/-- One run of classification and rendering: its value does not depend on
the issue log found, and it appends the same issues to any log. -/
theorem classify_render_uniform (provinces : List String) (regions : List Region)
    (signals : Levels (Option Landmasses)) :
    LogUniform (fun log =>
      _toWikitext provinces regions (_reorganizeSignals regions signals log).1
        (_reorganizeSignals regions signals log).2) :=
  LogUniform.seq _ (fun parsed log => _toWikitext provinces regions parsed log)
    (reorganizeSignals_uniform regions signals)
    (fun parsed => toWikitext_uniform provinces regions parsed)

theorem renderingOrder_single (regions : List Region) (landmasses : Landmasses)
    (e : AffectedArea) (i : Nat) (region : Region) (hm : mixed landmasses = [e])
    (hk : assignedBucket regions e = .region i) (hr : regions[i]? = some region) :
    renderingOrder regions landmasses = [(some region, [e])] := by
  have hb : ∀ k, bucketOf regions landmasses k = if k = .region i then [e] else [] := by
    intro k
    unfold bucketOf
    rw [hm]
    by_cases hki : k = .region i
    · simp [hki, hk]
    · have hne : ¬ BucketKey.region i = k := fun h => hki h.symm
      simp [hki, hk, hne]
  have hlt : i < regions.length := by
    by_contra hge
    rw [List.getElem?_eq_none (Nat.le_of_not_lt hge)] at hr
    cases hr
  have hkeys : (List.range regions.length).filter
      (fun j => bucketOf regions landmasses (.region j) ≠ []) = [i] := by
    apply List.perm_singleton.1
    refine (List.perm_ext_iff_of_nodup ((List.nodup_range _).filter _)
      (List.nodup_singleton i)).2 ?_
    intro j
    rw [List.mem_filter, List.mem_range, List.mem_singleton, hb]
    by_cases hji : j = i
    · subst hji
      simp [hlt]
    · simp [hji]
  unfold renderingOrder
  rw [hkeys]
  simp only [hb, List.map_cons, List.map_nil]
  simp [hr]

/-- The texts of a bulletin whose only signal is signal 3, with one entry. -/
theorem toWikitext_single (provinces : List String) (regions : List Region)
    (landmasses : Landmasses) (issues : IssueLog) (e : AffectedArea) (i : Nat)
    (region : Region) (line : String) (hm : mixed landmasses = [e])
    (hk : assignedBucket regions e = .region i) (hr : regions[i]? = some region)
    (hline : (_getProvinceAsBullet provinces e "**" none).1 = .ok line) :
    (_toWikitext provinces regions
        (_reorganizeSignals regions ⟨none, none, some landmasses, none, none⟩ issues).1
        (_reorganizeSignals regions ⟨none, none, some landmasses, none, none⟩ issues).2).1
      = .ok ⟨"", "", "\n" ++ (_getRegionHeader (some region) ++ line), "", ""⟩ := by
  have hl : ∀ l, (_getProvinceAsBullet provinces e "**" l).1 = .ok line :=
    fun l => (getProvinceAsBullet_fst provinces e "**" l).trans hline
  have h3 : ∀ log l, (signalWikitext provinces regions
      (some (_landmassesToRegions regions landmasses log).1) l).1
        = .ok ("\n" ++ (_getRegionHeader (some region) ++ line)) := by
    intro log l
    rw [signalWikitext_classified, renderingOrder_single regions landmasses e i region hm hk hr]
    simp only [List.foldl_cons, List.foldl_nil, appendRegion, _getRegionsWikitext,
      Option.isSome_some, if_true, appendBullet, andThen_ok]
    rw [andThen_of_ok _ line _ (hl l)]
    rfl
  have hn : ∀ l, signalWikitext provinces regions none l = (.ok "", l) := fun _ => rfl
  have hr0 : ∀ l, reorganizeSignal regions none l = (none, l) := fun _ => rfl
  have hr1 : ∀ l, reorganizeSignal regions (some landmasses) l =
      (some (_landmassesToRegions regions landmasses l).1,
        (_landmassesToRegions regions landmasses l).2) := fun _ => rfl
  unfold _toWikitext _reorganizeSignals
  simp only [hr0, hr1, hn, andThen_ok]
  rw [andThen_of_ok _ _ _ (h3 _ _)]

theorem toWikitext_ok_inv (provinces : List String) (regions : List Region)
    (parsedTCWS : Levels (Option ClassifiedAreas)) (issues log : IssueLog)
    (texts : Levels String)
    (h : _toWikitext provinces regions parsedTCWS issues = (.ok texts, log)) :
    (∃ l, (signalWikitext provinces regions parsedTCWS.signal1 l).1 = .ok texts.signal1)
      ∧ (∃ l, (signalWikitext provinces regions parsedTCWS.signal2 l).1 = .ok texts.signal2)
      ∧ (∃ l, (signalWikitext provinces regions parsedTCWS.signal3 l).1 = .ok texts.signal3)
      ∧ (∃ l, (signalWikitext provinces regions parsedTCWS.signal4 l).1 = .ok texts.signal4)
      ∧ (∃ l, (signalWikitext provinces regions parsedTCWS.signal5 l).1 = .ok texts.signal5) := by
  unfold _toWikitext at h
  cases h1 : (signalWikitext provinces regions parsedTCWS.signal1 issues).1 with
  | error e => simp [andThen, h1] at h
  | ok t1 =>
    rw [andThen_of_ok _ t1 _ h1] at h
    cases h2 : (signalWikitext provinces regions parsedTCWS.signal2
        (signalWikitext provinces regions parsedTCWS.signal1 issues).2).1 with
    | error e => simp [andThen, h2] at h
    | ok t2 =>
      rw [andThen_of_ok _ t2 _ h2] at h
      cases h3 : (signalWikitext provinces regions parsedTCWS.signal3
          (signalWikitext provinces regions parsedTCWS.signal2
            (signalWikitext provinces regions parsedTCWS.signal1 issues).2).2).1 with
      | error e => simp [andThen, h3] at h
      | ok t3 =>
        rw [andThen_of_ok _ t3 _ h3] at h
        cases h4 : (signalWikitext provinces regions parsedTCWS.signal4
            (signalWikitext provinces regions parsedTCWS.signal3
              (signalWikitext provinces regions parsedTCWS.signal2
                (signalWikitext provinces regions parsedTCWS.signal1 issues).2).2).2).1 with
        | error e => simp [andThen, h4] at h
        | ok t4 =>
          rw [andThen_of_ok _ t4 _ h4] at h
          cases h5 : (signalWikitext provinces regions parsedTCWS.signal5
              (signalWikitext provinces regions parsedTCWS.signal4
                (signalWikitext provinces regions parsedTCWS.signal3
                  (signalWikitext provinces regions parsedTCWS.signal2
                    (signalWikitext provinces regions parsedTCWS.signal1
                      issues).2).2).2).2).1 with
          | error e => simp [andThen, h5] at h
          | ok t5 =>
            rw [andThen_of_ok _ t5 _ h5] at h
            simp only [Prod.mk.injEq, Except.ok.injEq] at h
            obtain ⟨ht, _⟩ := h
            subst ht
            exact ⟨⟨_, h1⟩, ⟨_, h2⟩, ⟨_, h3⟩, ⟨_, h4⟩, ⟨_, h5⟩⟩

theorem signalWikitext_none (provinces : List String) (regions : List Region)
    (signal : Option Landmasses) (log l : IssueLog) (text : String) (hs : signal = none)
    (h : (signalWikitext provinces regions (reorganizeSignal regions signal log).1 l).1
      = .ok text) : text = "" := by
  subst hs
  simp only [reorganizeSignal, signalWikitext, Except.ok.injEq] at h
  exact h.symm

theorem getWarningSignalsTemplate_run (world : Collaborators) (regions : List Region)
    (self : Converter) (input : BulletinInput) (bulletin : Bulletin) (typhoon : Typhoon)
    (hres : resolveBulletin world input = .ok bulletin)
    (ht : bulletin.typhoon = some typhoon) :
    (getWarningSignalsTemplate world regions self input).2.issues =
        (_toWikitext world.categoryMembers regions
          (_reorganizeSignals regions bulletin.storm_signals self.issues).1
          (_reorganizeSignals regions bulletin.storm_signals self.issues).2).2
      ∧ (getWarningSignalsTemplate world regions self input).1.map RenderResult.template =
        (_toWikitext world.categoryMembers regions
          (_reorganizeSignals regions bulletin.storm_signals self.issues).1
          (_reorganizeSignals regions bulletin.storm_signals self.issues).2).1.map
          (_generateTemplate world.localOffset bulletin.issued_timestamp) := by
  unfold getWarningSignalsTemplate
  rw [hres]
  simp only [ht]
  split
  · rename_i e he
    simp [he, Except.map]
  · rename_i signals he
    simp [he, Except.map]

/-! ## Lemmas on the text of a signal -/

theorem joinText_append (a b : List String) :
    joinText (a ++ b) = joinText a ++ joinText b := by
  induction a with
  | nil => simp [joinText]
  | cons s rest ih => simp [joinText, ih, String.append_assoc]

theorem bulletLine_eq (provinces : List String) (v : AffectedArea) (bulletString : String)
    (log : IssueLog) (line : String)
    (h : (_getProvinceAsBullet provinces v bulletString log).1 = .ok line) :
    bulletLine provinces bulletString v = line := by
  unfold bulletLine
  rw [← getProvinceAsBullet_fst provinces v bulletString log, h]

theorem getProvinceAsBullet_shape (provinces : List String) (v : AffectedArea)
    (bulletString : String) (log : IssueLog) (line : String)
    (h : (_getProvinceAsBullet provinces v bulletString log).1 = .ok line) :
    ∃ body, line = bulletString ++ " " ++ body ++ "\n" := by
  have hm : bulletString ++ " Mainland " = bulletString ++ " " ++ "Mainland " := by
    rw [String.append_assoc]
    rfl
  have hr : bulletString ++ " rest of " = bulletString ++ " " ++ "rest of " := by
    rw [String.append_assoc]
    rfl
  unfold _getProvinceAsBullet at h
  simp only at h
  split at h
  · exact ⟨_, (Except.ok.inj h).symm⟩
  · split at h
    · exact absurd h (by simp)
    · rename_i includes hincludes
      split at h
      · exact absurd h (by simp)
      · rename_i term hterm
        split at h
        · refine ⟨"Mainland " ++ provinceLink (findProvincePage provinces v log).1 v.province, ?_⟩
          rw [← Except.ok.inj h, hm]
          simp only [String.append_assoc]
        · split at h
          · refine ⟨"rest of " ++ provinceLink (findProvincePage provinces v log).1 v.province,
              ?_⟩
            rw [← Except.ok.inj h, hr]
            simp only [String.append_assoc]
          · split at h
            · exact absurd h (by simp)
            · rename_i municipalities hmunicipalities
              refine ⟨templateText includes.part ++ " " ++ term ++ " of "
                ++ provinceLink (findProvincePage provinces v log).1 v.province
                ++ municipalities, ?_⟩
              rw [← Except.ok.inj h]
              simp only [String.append_assoc]

theorem foldl_appendBullet_error (provinces : List String) (bulletString : String)
    (areas : List AffectedArea) (e : JSError) (log : IssueLog) :
    areas.foldl (appendBullet provinces bulletString) (.error e, log) = (.error e, log) := by
  induction areas with
  | nil => rfl
  | cons v rest ih =>
    simp only [List.foldl_cons]
    exact ih

theorem foldl_appendBullet_text (provinces : List String) (bulletString : String)
    (areas : List AffectedArea) (out : String) (log : IssueLog) (t : String)
    (h : (areas.foldl (appendBullet provinces bulletString) (.ok out, log)).1 = .ok t) :
    t = out ++ joinText (areas.map (bulletLine provinces bulletString)) := by
  induction areas generalizing out log with
  | nil =>
    simp only [List.foldl_nil] at h
    simp [joinText, ← Except.ok.inj h]
  | cons v rest ih =>
    simp only [List.foldl_cons] at h
    cases hb : (_getProvinceAsBullet provinces v bulletString log).1 with
    | error e =>
      have hstep : appendBullet provinces bulletString (.ok out, log) v
          = (.error e, (_getProvinceAsBullet provinces v bulletString log).2) := by
        unfold appendBullet
        rw [andThen_ok]
        unfold andThen
        rw [hb]
      rw [hstep, foldl_appendBullet_error] at h
      exact absurd h (by simp)
    | ok line =>
      have hstep : appendBullet provinces bulletString (.ok out, log) v
          = (.ok (out ++ line), (_getProvinceAsBullet provinces v bulletString log).2) := by
        unfold appendBullet
        rw [andThen_ok, andThen_of_ok _ line _ hb]
      rw [hstep] at h
      rw [ih _ _ h, List.map_cons, joinText, bulletLine_eq provinces v bulletString log line hb,
        String.append_assoc]

theorem getRegionsWikitext_text (provinces : List String) (region : Option Region)
    (areas : List AffectedArea) (log : IssueLog) (t : String)
    (h : (_getRegionsWikitext provinces region areas log).1 = .ok t) :
    t = _getRegionHeader region
      ++ joinText (areas.map (bulletLine provinces (if region.isSome then "**" else "*"))) :=
  foldl_appendBullet_text provinces _ areas _ log t h

theorem foldl_appendRegion_error (provinces : List String)
    (parts : List (Option Region × List AffectedArea)) (e : JSError) (log : IssueLog) :
    parts.foldl (appendRegion provinces) (.error e, log) = (.error e, log) := by
  induction parts with
  | nil => rfl
  | cons part rest ih =>
    simp only [List.foldl_cons]
    exact ih

theorem foldl_appendRegion_text (provinces : List String)
    (parts : List (Option Region × List AffectedArea)) (out : String) (log : IssueLog)
    (t : String)
    (h : (parts.foldl (appendRegion provinces) (.ok out, log)).1 = .ok t) :
    t = out ++ joinText (parts.map (fun part => _getRegionHeader part.1
      ++ joinText (part.2.map (bulletLine provinces (if part.1.isSome then "**" else "*"))))) := by
  induction parts generalizing out log with
  | nil =>
    simp only [List.foldl_nil] at h
    simp [joinText, ← Except.ok.inj h]
  | cons part rest ih =>
    simp only [List.foldl_cons] at h
    cases hb : (_getRegionsWikitext provinces part.1 part.2 log).1 with
    | error e =>
      have hstep : appendRegion provinces (.ok out, log) part
          = (.error e, (_getRegionsWikitext provinces part.1 part.2 log).2) := by
        unfold appendRegion
        rw [andThen_ok]
        unfold andThen
        rw [hb]
      rw [hstep, foldl_appendRegion_error] at h
      exact absurd h (by simp)
    | ok text =>
      have hstep : appendRegion provinces (.ok out, log) part
          = (.ok (out ++ text), (_getRegionsWikitext provinces part.1 part.2 log).2) := by
        unfold appendRegion
        rw [andThen_ok, andThen_of_ok _ text _ hb]
      rw [hstep] at h
      rw [ih _ _ h, List.map_cons, joinText,
        getRegionsWikitext_text provinces part.1 part.2 log text hb, String.append_assoc]

theorem renderingOrder_text (provinces : List String) (regions : List Region)
    (landmasses : Landmasses) :
    "\n" ++ joinText ((renderingOrder regions landmasses).map (fun part =>
        _getRegionHeader part.1
          ++ joinText (part.2.map (bulletLine provinces (if part.1.isSome then "**" else "*")))))
      = signalText provinces regions (some landmasses) := by
  unfold signalText renderingOrder
  rw [List.map_append, joinText_append, ← String.append_assoc, List.map_map]
  congr 1
  · congr 1
    by_cases hu : bucketOf regions landmasses .unclassified = []
    · simp [hu, joinText]
    · simp only [hu, if_false, List.map_cons, List.map_nil, joinText, _getRegionHeader,
        Option.isSome_none, String.append_empty]
      rfl
  · congr 1
    apply List.map_congr_left
    intro i hi
    have hlt : i < regions.length := List.mem_range.1 (List.mem_filter.1 hi).1
    simp only [Function.comp, List.getElem?_eq_getElem hlt, Option.isSome_some, if_true]

theorem signalWikitext_text (provinces : List String) (regions : List Region)
    (signal : Option Landmasses) (log l : IssueLog) (text : String)
    (h : (signalWikitext provinces regions (reorganizeSignal regions signal log).1 l).1
      = .ok text) : text = signalText provinces regions signal := by
  cases signal with
  | none => exact signalWikitext_none provinces regions none log l text rfl h
  | some landmasses =>
    have hc : (reorganizeSignal regions (some landmasses) log).1
        = some (_landmassesToRegions regions landmasses log).1 := rfl
    rw [hc, signalWikitext_classified] at h
    rw [foldl_appendRegion_text provinces _ _ _ text h]
    exact renderingOrder_text provinces regions landmasses

theorem toWikitext_text (provinces : List String) (regions : List Region)
    (signals : Levels (Option Landmasses)) (issues log : IssueLog) (texts : Levels String)
    (h : _toWikitext provinces regions (_reorganizeSignals regions signals issues).1
      (_reorganizeSignals regions signals issues).2 = (.ok texts, log)) :
    texts = ⟨signalText provinces regions signals.signal1,
      signalText provinces regions signals.signal2,
      signalText provinces regions signals.signal3,
      signalText provinces regions signals.signal4,
      signalText provinces regions signals.signal5⟩ := by
  obtain ⟨⟨l1, h1⟩, ⟨l2, h2⟩, ⟨l3, h3⟩, ⟨l4, h4⟩, ⟨l5, h5⟩⟩ :=
    toWikitext_ok_inv provinces regions _ _ log texts h
  obtain ⟨t1, t2, t3, t4, t5⟩ := texts
  simp only [Levels.mk.injEq]
  exact ⟨signalWikitext_text provinces regions _ _ l1 _ h1,
    signalWikitext_text provinces regions _ _ l2 _ h2,
    signalWikitext_text provinces regions _ _ l3 _ h3,
    signalWikitext_text provinces regions _ _ l4 _ h4,
    signalWikitext_text provinces regions _ _ l5 _ h5⟩

/-! ## Lemmas on records whose `extras` may be `null` -/

theorem mem_landmassesOf (signal : Option AffectedAreas) (v : AffectedArea)
    (h : v ∈ ((signal.bind AffectedAreas.landmasses).map mixed).getD []) :
    ∃ areas, signal = some areas ∧ v ∈ areas.mixed := by
  cases signal with
  | none => simp at h
  | some areas =>
    refine ⟨areas, rfl, ?_⟩
    cases he : areas.extras with
    | null => simp [AffectedAreas.landmasses, he] at h
    | undefined => simpa [AffectedAreas.landmasses, he, mixed, AffectedAreas.mixed] using h
    | value extras => simpa [AffectedAreas.landmasses, he, mixed, AffectedAreas.mixed] using h

theorem mem_allAreas_landmassesOf (signals : Levels (Option AffectedAreas)) (v : AffectedArea)
    (h : v ∈ allAreas (landmassesOf signals)) :
    ∃ areas, some areas ∈ signals.toList ∧ v ∈ areas.mixed := by
  simp only [allAreas, landmassesOf, List.mem_append] at h
  rcases h with (((h | h) | h) | h) | h
  all_goals
    obtain ⟨areas, hs, hv⟩ := mem_landmassesOf _ v h
    exact ⟨areas, by simp [Levels.toList, hs], hv⟩

theorem reorganizeSignalOrThrow_eq (regions : List Region) (signal : Option AffectedAreas)
    (issues : IssueLog) (h : ∀ areas, signal = some areas → areas.extras ≠ .null) :
    reorganizeSignalOrThrow regions signal issues
      = (.ok (reorganizeSignal regions (signal.bind AffectedAreas.landmasses) issues).1,
          (reorganizeSignal regions (signal.bind AffectedAreas.landmasses) issues).2) := by
  cases signal with
  | none => rfl
  | some areas =>
    cases he : areas.extras with
    | null => exact absurd he (h areas rfl)
    | undefined =>
      simp only [reorganizeSignalOrThrow, landmassesToRegionsOrThrow, AffectedAreas.landmasses,
        he, andThen, Option.some_bind, reorganizeSignal]
    | value extras =>
      simp only [reorganizeSignalOrThrow, landmassesToRegionsOrThrow, AffectedAreas.landmasses,
        he, andThen, Option.some_bind, reorganizeSignal]

theorem reorganizeSignalsOrThrow_eq (regions : List Region)
    (signals : Levels (Option AffectedAreas)) (issues : IssueLog)
    (h : ∀ areas, some areas ∈ signals.toList → areas.extras ≠ .null) :
    reorganizeSignalsOrThrow regions signals issues
      = (.ok (_reorganizeSignals regions (landmassesOf signals) issues).1,
          (_reorganizeSignals regions (landmassesOf signals) issues).2) := by
  unfold reorganizeSignalsOrThrow
  rw [reorganizeSignalOrThrow_eq regions signals.signal1 _
      (fun areas hs => h areas (by simp [Levels.toList, hs])), andThen_ok,
    reorganizeSignalOrThrow_eq regions signals.signal2 _
      (fun areas hs => h areas (by simp [Levels.toList, hs])), andThen_ok,
    reorganizeSignalOrThrow_eq regions signals.signal3 _
      (fun areas hs => h areas (by simp [Levels.toList, hs])), andThen_ok,
    reorganizeSignalOrThrow_eq regions signals.signal4 _
      (fun areas hs => h areas (by simp [Levels.toList, hs])), andThen_ok,
    reorganizeSignalOrThrow_eq regions signals.signal5 _
      (fun areas hs => h areas (by simp [Levels.toList, hs])), andThen_ok]
  rfl

theorem mem_rendered_bucket (regions : List Region) (landmasses : Landmasses)
    (v : AffectedArea) (h : v ∈ mixed landmasses) :
    v ∈ bucketOf regions landmasses .unclassified
      ∨ ∃ i ∈ (List.range regions.length).filter
            (fun i => bucketOf regions landmasses (.region i) ≠ []),
          v ∈ bucketOf regions landmasses (.region i) := by
  have hv : v ∈ bucketOf regions landmasses (assignedBucket regions v) :=
    List.mem_filter.2 ⟨h, by simp⟩
  cases hk : assignedBucket regions v with
  | unclassified =>
    rw [hk] at hv
    exact Or.inl hv
  | region i =>
    rw [hk] at hv
    have hne : bucketOf regions landmasses (.region i) ≠ [] := List.ne_nil_of_mem hv
    refine Or.inr ⟨i, List.mem_filter.2 ⟨List.mem_range.2
      (bucketOf_region_lt regions landmasses i hne), by simpa using hne⟩, hv⟩

theorem classify_render_text (provinces : List String) (regions : List Region)
    (signals : Levels (Option AffectedAreas)) (issues : IssueLog)
    (hextras : ∀ areas, some areas ∈ signals.toList → areas.extras ≠ .null)
    (hincludes : ∀ areas, some areas ∈ signals.toList → ∀ v ∈ areas.mixed, WellFormedArea v) :
    (andThen (reorganizeSignalsOrThrow regions signals issues)
        (_toWikitext provinces regions)).1
      = .ok ⟨signalText provinces regions (landmassesOf signals).signal1,
          signalText provinces regions (landmassesOf signals).signal2,
          signalText provinces regions (landmassesOf signals).signal3,
          signalText provinces regions (landmassesOf signals).signal4,
          signalText provinces regions (landmassesOf signals).signal5⟩ := by
  rw [reorganizeSignalsOrThrow_eq regions signals issues hextras, andThen_ok]
  have hwf : ∀ v ∈ allAreas (landmassesOf signals), WellFormedArea v := by
    intro v hv
    obtain ⟨areas, hs, hm⟩ := mem_allAreas_landmassesOf signals v hv
    exact hincludes areas hs v hm
  obtain ⟨texts, ht⟩ := toWikitext_ok provinces regions (landmassesOf signals) issues hwf
  rw [ht, toWikitext_text provinces regions (landmassesOf signals) issues _ texts
    (Prod.ext ht rfl)]

theorem landmasses_mixed (areas : AffectedAreas) (landmasses : Landmasses)
    (h : landmasses ∈ areas.landmasses) : mixed landmasses = areas.mixed := by
  cases he : areas.extras with
  | null => simp [AffectedAreas.landmasses, he] at h
  | undefined =>
    simp only [AffectedAreas.landmasses, he, Option.mem_def, Option.some.injEq] at h
    rw [← h]
    rfl
  | value extras =>
    simp only [AffectedAreas.landmasses, he, Option.mem_def, Option.some.injEq] at h
    rw [← h]
    rfl

/-! ## Lemmas on successive runs -/

/-- Two runs in a row on the same converter, bulletin and collaborators give
the same markup (or the same error), and each run appends the same issues to
the log it finds: the log is never reset. -/
theorem getWarningSignalsTemplate_appends (world : Collaborators) (regions : List Region)
    (self : Converter) (input : BulletinInput) :
    (getWarningSignalsTemplate world regions
        (getWarningSignalsTemplate world regions self input).2 input).1.map
        RenderResult.template
      = (getWarningSignalsTemplate world regions self input).1.map RenderResult.template
      ∧ ∃ delta,
        IssueLog.entries (getWarningSignalsTemplate world regions self input).2.issues
          = IssueLog.entries self.issues ++ delta
        ∧ IssueLog.entries (getWarningSignalsTemplate world regions
            (getWarningSignalsTemplate world regions self input).2 input).2.issues
          = IssueLog.entries (getWarningSignalsTemplate world regions self input).2.issues
            ++ delta := by
  cases hres : resolveBulletin world input with
  | error e =>
    have h1 : getWarningSignalsTemplate world regions self input = (.error e, self) := by
      unfold getWarningSignalsTemplate
      rw [hres]
    rw [h1]
    simp only [h1]
    exact ⟨trivial, [], by simp, by simp⟩
  | ok bulletin =>
    cases ht : bulletin.typhoon with
    | none =>
      have h1 : ∀ c : Converter, getWarningSignalsTemplate world regions c input =
          (.ok ⟨.messages ["There is no active typhoon bulletin."],
              "\x27\x27No active typhoon warning signals.\x27\x27"⟩, c) := by
        intro c
        unfold getWarningSignalsTemplate
        rw [hres]
        simp only [ht]
      simp only [h1]
      exact ⟨trivial, [], by simp, by simp⟩
    | some typhoon =>
      have hu := classify_render_uniform world.categoryMembers regions bulletin.storm_signals
      obtain ⟨s1, t1⟩ := getWarningSignalsTemplate_run world regions self input bulletin
        typhoon hres ht
      obtain ⟨s2, t2⟩ := getWarningSignalsTemplate_run world regions
        (getWarningSignalsTemplate world regions self input).2 input bulletin typhoon hres ht
      refine ⟨?_, IssueLog.entries (_toWikitext world.categoryMembers regions
          (_reorganizeSignals regions bulletin.storm_signals none).1
          (_reorganizeSignals regions bulletin.storm_signals none).2).2, ?_, ?_⟩
      · rw [t2, t1, (hu _).1, (hu self.issues).1]
      · rw [s1]
        exact (hu self.issues).2
      · rw [s2]
        exact (hu _).2

/-! ## Claims on `_toWikitext` and on whole runs -/

/-- C11: the texts that `_toWikitext` returns for the signals classified by
`_reorganizeSignals` are these, and it returns them whenever no bullet
throws, that is when every area with a sub-area part carries an `includes`
record with a term: the text of a signal without entry is empty and the text
of a signal with classified data is a newline, then, when bucket `"_"` has
entries, a bare newline in place of a header and one `*` bullet per entry,
then for every region whose bucket has entries, by ascending region index and
whatever the order in which classification created the buckets, the header of
the region followed by one `**` bullet per entry. The entries of a bucket are
those that classification put there, in bucket order, and the bullet of an
entry is the line that `_getProvinceAsBullet` returns for it, which starts
with the bullet string and a space and ends with a newline. -/
theorem toWikitext_signal_order (provinces : List String) (regions : List Region)
    (signals : Levels (Option Landmasses)) (issues : IssueLog) :
    (∀ texts log,
        _toWikitext provinces regions (_reorganizeSignals regions signals issues).1
          (_reorganizeSignals regions signals issues).2 = (.ok texts, log) →
        texts = ⟨signalText provinces regions signals.signal1,
          signalText provinces regions signals.signal2,
          signalText provinces regions signals.signal3,
          signalText provinces regions signals.signal4,
          signalText provinces regions signals.signal5⟩)
      ∧ ((∀ v ∈ allAreas signals,
            v.part = some true → (v.includes.bind Includes.term).isSome = true) →
          (_toWikitext provinces regions (_reorganizeSignals regions signals issues).1
            (_reorganizeSignals regions signals issues).2).1
          = .ok ⟨signalText provinces regions signals.signal1,
            signalText provinces regions signals.signal2,
            signalText provinces regions signals.signal3,
            signalText provinces regions signals.signal4,
            signalText provinces regions signals.signal5⟩)
      ∧ (∀ landmasses l k, (getBucket (_landmassesToRegions regions landmasses l).1 k).getD []
          = bucketOf regions landmasses k)
      ∧ ∀ v bulletString l line,
          (_getProvinceAsBullet provinces v bulletString l).1 = .ok line →
            bulletLine provinces bulletString v = line
              ∧ ∃ body, line = bulletString ++ " " ++ body ++ "\n" := by
  refine ⟨fun texts log h => toWikitext_text provinces regions signals issues log texts h,
    fun hwf => ?_, fun landmasses l => landmasses_getBucket_getD regions landmasses l,
    fun v bulletString l line hl => ⟨bulletLine_eq provinces v bulletString l line hl,
      getProvinceAsBullet_shape provinces v bulletString l line hl⟩⟩
  obtain ⟨texts, ht⟩ := toWikitext_ok provinces regions signals issues hwf
  rw [ht, toWikitext_text provinces regions signals issues _ texts (Prod.ext ht rfl)]

set_option maxRecDepth 100000 in
/-- C11 on a bulletin whose signal 2 creates the buckets in the order region
2, `"_"`, region 1, region 0: the text shows bucket `"_"` first, under a bare
newline and with `*` bullets, then the regions 0, 1 and 2, each under its
header and with `**` bullets, the two entries of region 2 in input order. -/
theorem toWikitext_signal_order_witness :
    (∀ landmasses, signalTwoMixed.signal2 = some landmasses →
        (_landmassesToRegions duplicateRegions landmasses none).1.map Prod.fst
          = [.region 2, .unclassified, .region 1, .region 0])
      ∧ (∀ v ∈ allAreas signalTwoMixed,
          v.part = some true → (v.includes.bind Includes.term).isSome = true)
      ∧ _toWikitext samplePages duplicateRegions
          (_reorganizeSignals duplicateRegions signalTwoMixed none).1
          (_reorganizeSignals duplicateRegions signalTwoMixed none).2
        = (.ok ⟨"", "\n\n* Atlantis\n"
              ++ "* \x27\x27\x27[[Ilocos Region]]\x27\x27\x27 \x7b\x7bsmall|(Region I)\x7d\x7d\n"
              ++ "** [[Ilocos Sur (province)|Ilocos Sur]]\n"
              ++ "* \x27\x27\x27[[Eastern Visayas]]\x27\x27\x27 "
              ++ "\x7b\x7bsmall|(Region VIII)\x7d\x7d\n"
              ++ "** [[Leyte]]\n"
              ++ "* \x27\x27\x27[[Central Visayas]]\x27\x27\x27 "
              ++ "\x7b\x7bsmall|(Region VII)\x7d\x7d\n"
              ++ "** [[Cebu]]\n** [[Cebu]]\n", "", "", ""⟩,
            some [.entry "Region for Atlantis not found." (wholeProvince "Atlantis"),
              .province "Page not found for province: Atlantis" "Atlantis"])
      ∧ (_toWikitext samplePages duplicateRegions
          (_reorganizeSignals duplicateRegions signalTwoMixed none).1
          (_reorganizeSignals duplicateRegions signalTwoMixed none).2).1
        = .ok ⟨signalText samplePages duplicateRegions signalTwoMixed.signal1,
            signalText samplePages duplicateRegions signalTwoMixed.signal2,
            signalText samplePages duplicateRegions signalTwoMixed.signal3,
            signalText samplePages duplicateRegions signalTwoMixed.signal4,
            signalText samplePages duplicateRegions signalTwoMixed.signal5⟩
      ∧ (⟨"", "\n\n* Atlantis\n"
            ++ "* \x27\x27\x27[[Ilocos Region]]\x27\x27\x27 \x7b\x7bsmall|(Region I)\x7d\x7d\n"
            ++ "** [[Ilocos Sur (province)|Ilocos Sur]]\n"
            ++ "* \x27\x27\x27[[Eastern Visayas]]\x27\x27\x27 "
            ++ "\x7b\x7bsmall|(Region VIII)\x7d\x7d\n"
            ++ "** [[Leyte]]\n"
            ++ "* \x27\x27\x27[[Central Visayas]]\x27\x27\x27 "
            ++ "\x7b\x7bsmall|(Region VII)\x7d\x7d\n"
            ++ "** [[Cebu]]\n** [[Cebu]]\n", "", "", ""⟩ : Levels String)
        = ⟨signalText samplePages duplicateRegions signalTwoMixed.signal1,
            signalText samplePages duplicateRegions signalTwoMixed.signal2,
            signalText samplePages duplicateRegions signalTwoMixed.signal3,
            signalText samplePages duplicateRegions signalTwoMixed.signal4,
            signalText samplePages duplicateRegions signalTwoMixed.signal5⟩ :=
  ⟨by decide, by decide, by decide,
    (toWikitext_signal_order samplePages duplicateRegions signalTwoMixed none).2.1 (by decide),
    (toWikitext_signal_order samplePages duplicateRegions signalTwoMixed none).1 _
      (some [.entry "Region for Atlantis not found." (wholeProvince "Atlantis"),
        .province "Page not found for province: Atlantis" "Atlantis"]) (by decide)⟩

/-- C14, as stated, fails: an area with `part` true and no `includes`, or
with an `includes` that has no term, makes `_getProvinceAsBullet` read a
property of `undefined`, and a record with `extras: null` makes
`_landmassesToRegions` call `Object.keys(null)`; in each case
`_reorganizeSignals` followed by `_toWikitext` ends with a `TypeError`. -/
theorem toWikitext_throws_counterexample :
    (andThen (reorganizeSignalsOrThrow duplicateRegions signalOneBareAreas none)
        (_toWikitext ["Cebu"] duplicateRegions)).1 = .error .typeError
      ∧ (_getProvinceAsBullet ["Cebu"] ⟨"Cebu", some true, some ⟨none, none, none⟩⟩ "**"
          none).1 = .error .typeError
      ∧ (andThen (reorganizeSignalsOrThrow duplicateRegions signalOneNullExtras none)
          (_toWikitext ["Cebu"] duplicateRegions)).1 = .error .typeError := by
  decide

/-- C14, amended: when every area of the bulletin whose `part` is true
carries an `includes` record with a term and no record of affected areas has
`extras: null`, `_reorganizeSignals` followed by `_toWikitext` raises no
error, whatever the province existence set and the region table: it returns
the five texts, each the text of its signal with the bullets of all buckets,
every entry of the lists `luzon`, `visayas` and `mindanao` lies in one of the
buckets rendered there, and the bullet of every entry is the line that
`_getProvinceAsBullet` returns for it. -/
theorem toWikitext_completes (provinces : List String) (regions : List Region)
    (signals : Levels (Option AffectedAreas)) (issues : IssueLog)
    (hincludes : ∀ signal ∈ signals.toList, ∀ areas ∈ signal, ∀ v ∈ areas.mixed,
      v.part = some true → (v.includes.bind Includes.term).isSome = true)
    (hextras : ∀ signal ∈ signals.toList, ∀ areas ∈ signal, areas.extras ≠ .null) :
    (andThen (reorganizeSignalsOrThrow regions signals issues)
        (_toWikitext provinces regions)).1
      = .ok ⟨signalText provinces regions (signals.signal1.bind AffectedAreas.landmasses),
          signalText provinces regions (signals.signal2.bind AffectedAreas.landmasses),
          signalText provinces regions (signals.signal3.bind AffectedAreas.landmasses),
          signalText provinces regions (signals.signal4.bind AffectedAreas.landmasses),
          signalText provinces regions (signals.signal5.bind AffectedAreas.landmasses)⟩
      ∧ (∀ signal ∈ signals.toList, ∀ areas ∈ signal, ∀ landmasses ∈ areas.landmasses,
          ∀ v ∈ areas.mixed,
            v ∈ bucketOf regions landmasses .unclassified
              ∨ ∃ i ∈ (List.range regions.length).filter
                    (fun i => bucketOf regions landmasses (.region i) ≠ []),
                  v ∈ bucketOf regions landmasses (.region i))
      ∧ ∀ signal ∈ signals.toList, ∀ areas ∈ signal, ∀ v ∈ areas.mixed,
          ∀ bulletString l,
            (_getProvinceAsBullet provinces v bulletString l).1
              = .ok (bulletLine provinces bulletString v) := by
  refine ⟨classify_render_text provinces regions signals issues
      (fun areas hs => hextras (some areas) hs areas rfl)
      (fun areas hs => hincludes (some areas) hs areas rfl),
    fun _ _ areas _ landmasses hl v hv =>
      mem_rendered_bucket regions landmasses v
        ((landmasses_mixed areas landmasses hl).symm ▸ hv),
    fun signal hs areas ha v hv bulletString l => ?_⟩
  obtain ⟨line, hline⟩ := getProvinceAsBullet_ok provinces v bulletString l
    (hincludes signal hs areas ha v hv)
  rw [hline, bulletLine_eq provinces v bulletString l line hline]

set_option maxRecDepth 100000 in
/-- C14, amended, on a bulletin with signals 1 and 4: under signal 1 a part
of Cagayan and a province without region or page, with a list of extras, and
under signal 4 two provinces of two regions; all four entries are rendered. -/
theorem toWikitext_completes_witness :
    (∀ signal ∈ signalsOneAndFour.toList, ∀ areas ∈ signal, ∀ v ∈ areas.mixed,
        v.part = some true → (v.includes.bind Includes.term).isSome = true)
      ∧ (∀ signal ∈ signalsOneAndFour.toList, ∀ areas ∈ signal, areas.extras ≠ .null)
      ∧ (andThen (reorganizeSignalsOrThrow duplicateRegions signalsOneAndFour none)
          (_toWikitext ["Cebu", "Cagayan"] duplicateRegions)).1
        = .ok ⟨"\n\n* northern portion of [[Cagayan]] \x7b\x7bsmall|("
              ++ "[[Santa Ana, Cagayan|Sta. Ana]], [[Gonzaga, Cagayan|Gonzaga]])\x7d\x7d\n"
              ++ "* Atlantis\n",
            "", "",
            "\n* \x27\x27\x27[[Eastern Visayas]]\x27\x27\x27 \x7b\x7bsmall|(Region VIII)\x7d\x7d\n"
              ++ "** Leyte\n"
              ++ "* \x27\x27\x27[[Central Visayas]]\x27\x27\x27 \x7b\x7bsmall|(Region VII)\x7d\x7d\n"
              ++ "** [[Cebu]]\n",
            ""⟩ :=
  ⟨by decide, by decide,
    (toWikitext_completes ["Cebu", "Cagayan"] duplicateRegions signalsOneAndFour none
      (by decide) (by decide)).1.trans (by decide)⟩

set_option maxRecDepth 100000 in
/-- C12: on a converter that starts without issues, two runs on the same
bulletin and province set return the same markup, but the first run returns
two issues and the second run returns the two of the first run followed by
the same two again. -/
theorem getWarningSignalsTemplate_twice :
    (getWarningSignalsTemplate sampleWorld duplicateRegions ⟨none, none⟩
        (.object ⟨some ⟨"Goni"⟩, 1604210400000, signalOneAtlantis⟩)).1.map RenderResult.issues
      = .ok (.issues
          [.entry "Region for Atlantis not found." (wholeProvince "Atlantis"),
           .province "Page not found for province: Atlantis" "Atlantis"])
      ∧ (getWarningSignalsTemplate sampleWorld duplicateRegions
          (getWarningSignalsTemplate sampleWorld duplicateRegions ⟨none, none⟩
            (.object ⟨some ⟨"Goni"⟩, 1604210400000, signalOneAtlantis⟩)).2
          (.object ⟨some ⟨"Goni"⟩, 1604210400000, signalOneAtlantis⟩)).1.map
          RenderResult.issues
        = .ok (.issues
          [.entry "Region for Atlantis not found." (wholeProvince "Atlantis"),
           .province "Page not found for province: Atlantis" "Atlantis",
           .entry "Region for Atlantis not found." (wholeProvince "Atlantis"),
           .province "Page not found for province: Atlantis" "Atlantis"])
      ∧ (getWarningSignalsTemplate sampleWorld duplicateRegions
          (getWarningSignalsTemplate sampleWorld duplicateRegions ⟨none, none⟩
            (.object ⟨some ⟨"Goni"⟩, 1604210400000, signalOneAtlantis⟩)).2
          (.object ⟨some ⟨"Goni"⟩, 1604210400000, signalOneAtlantis⟩)).1.map
          RenderResult.template
        = (getWarningSignalsTemplate sampleWorld duplicateRegions ⟨none, none⟩
            (.object ⟨some ⟨"Goni"⟩, 1604210400000, signalOneAtlantis⟩)).1.map
            RenderResult.template := by
  decide

/-- C15: in the template the fields come in the order `PH5`, `PH4`, `PH3`,
`PH2`, `PH1`; the field of a signal without entry in `storm_signals` is
empty, and the field of any other signal is the text of the signal with the
white space around it trimmed. When only signal 3 is populated, by one entry
whose province belongs to the region at index 2, the text of signal 3 is a
newline, the header of that region and the `**` bullet of the entry, and the
four other texts are empty. -/
theorem generateTemplate_fields (provinces : List String) (regions : List Region)
    (signals : Levels (Option Landmasses)) (issues log : IssueLog) (localOffset issued : Int)
    (texts : Levels String)
    (h : _toWikitext provinces regions (_reorganizeSignals regions signals issues).1
      (_reorganizeSignals regions signals issues).2 = (.ok texts, log)) :
    _generateTemplate localOffset issued texts =
        "\x7b\x7bTyphoonWarningsTable\n"
          ++ "| PHtime = " ++ phTime localOffset issued ++ "\n"
          ++ "| PH5 = " ++ (if signals.signal5 = none then "" else trim texts.signal5) ++ "\n"
          ++ "| PH4 = " ++ (if signals.signal4 = none then "" else trim texts.signal4) ++ "\n"
          ++ "| PH3 = " ++ (if signals.signal3 = none then "" else trim texts.signal3) ++ "\n"
          ++ "| PH2 = " ++ (if signals.signal2 = none then "" else trim texts.signal2) ++ "\n"
          ++ "| PH1 = " ++ (if signals.signal1 = none then "" else trim texts.signal1) ++ "\n"
          ++ "| PHsource = [http://bagong.pagasa.dost.gov.ph/tropical-cyclone/severe-weather-bulletin/2 PAGASA]\n"
          ++ "\x7d\x7d"
      ∧ ∀ landmasses e region line,
          signals = ⟨none, none, some landmasses, none, none⟩ →
          mixed landmasses = [e] →
          assignedBucket regions e = .region 2 →
          regions[2]? = some region →
          (_getProvinceAsBullet provinces e "**" none).1 = .ok line →
          texts = ⟨"", "", "\n" ++ (_getRegionHeader (some region) ++ line), "", ""⟩ := by
  constructor
  · obtain ⟨⟨l1, e1⟩, ⟨l2, e2⟩, ⟨l3, e3⟩, ⟨l4, e4⟩, ⟨l5, e5⟩⟩ :=
      toWikitext_ok_inv provinces regions _ _ log texts h
    have hempty : trim "" = "" := by decide
    have f1 : (if signals.signal1 = none then "" else trim texts.signal1)
        = trim texts.signal1 := by
      by_cases hs : signals.signal1 = none
      · rw [if_pos hs, signalWikitext_none provinces regions _ _ l1 _ hs e1, hempty]
      · rw [if_neg hs]
    have f2 : (if signals.signal2 = none then "" else trim texts.signal2)
        = trim texts.signal2 := by
      by_cases hs : signals.signal2 = none
      · rw [if_pos hs, signalWikitext_none provinces regions _ _ l2 _ hs e2, hempty]
      · rw [if_neg hs]
    have f3 : (if signals.signal3 = none then "" else trim texts.signal3)
        = trim texts.signal3 := by
      by_cases hs : signals.signal3 = none
      · rw [if_pos hs, signalWikitext_none provinces regions _ _ l3 _ hs e3, hempty]
      · rw [if_neg hs]
    have f4 : (if signals.signal4 = none then "" else trim texts.signal4)
        = trim texts.signal4 := by
      by_cases hs : signals.signal4 = none
      · rw [if_pos hs, signalWikitext_none provinces regions _ _ l4 _ hs e4, hempty]
      · rw [if_neg hs]
    have f5 : (if signals.signal5 = none then "" else trim texts.signal5)
        = trim texts.signal5 := by
      by_cases hs : signals.signal5 = none
      · rw [if_pos hs, signalWikitext_none provinces regions _ _ l5 _ hs e5, hempty]
      · rw [if_neg hs]
    rw [f1, f2, f3, f4, f5]
    rfl
  · intro landmasses e region line hs hm hk hr hline
    subst hs
    have hone := toWikitext_single provinces regions landmasses issues e 2 region line hm hk
      hr hline
    rw [h] at hone
    simp only [Except.ok.injEq] at hone
    exact hone

set_option maxRecDepth 100000 in
/-- C15 on a bulletin whose only signal is signal 3, for Cebu, which the
region at index 2 lists: `PH3` is the header of that region and the `**`
bullet of the province, the other fields are empty. -/
theorem generateTemplate_fields_witness :
    _toWikitext ["Cebu"] duplicateRegions (_reorganizeSignals duplicateRegions signalThreeCebu none).1
        (_reorganizeSignals duplicateRegions signalThreeCebu none).2
      = (.ok ⟨"", "",
          "\n* \x27\x27\x27[[Central Visayas]]\x27\x27\x27 \x7b\x7bsmall|(Region VII)\x7d\x7d\n** [[Cebu]]\n",
          "", ""⟩, none)
      ∧ _generateTemplate 0 1604210400000 ⟨"", "",
          "\n* \x27\x27\x27[[Central Visayas]]\x27\x27\x27 \x7b\x7bsmall|(Region VII)\x7d\x7d\n** [[Cebu]]\n",
          "", ""⟩ =
        "\x7b\x7bTyphoonWarningsTable\n"
          ++ "| PHtime = 06:00 UTC (14:00 [[Philippine Standard Time|PHT]])\n"
          ++ "| PH5 = \n"
          ++ "| PH4 = \n"
          ++ "| PH3 = * \x27\x27\x27[[Central Visayas]]\x27\x27\x27 \x7b\x7bsmall|(Region VII)\x7d\x7d\n** [[Cebu]]\n"
          ++ "| PH2 = \n"
          ++ "| PH1 = \n"
          ++ "| PHsource = [http://bagong.pagasa.dost.gov.ph/tropical-cyclone/severe-weather-bulletin/2 PAGASA]\n"
          ++ "\x7d\x7d" :=
  ⟨by decide,
    (generateTemplate_fields ["Cebu"] duplicateRegions signalThreeCebu none none 0
      1604210400000 _ (by decide)).1.trans (by decide)⟩

end PagasaToWikipedia
